import Mathlib

/-!
# JPEG segment scanner and EXIF entry decoder (`images/jpg/functions.go`)

A shallow embedding of `New`, `isJPG`, `EntryDataOf` and the three tag
catalogs `findIFD0Tag`, `findIFD1Tag` and `findSubIFDTag`.

* A Go `[]byte` is a `List UInt8` whose capacity equals its length (this is
  the case for the buffer `New` allocates with `make([]byte, size)`).
* A run-time panic (index or slice bounds out of range) is `none` in the
  helpers and `Outcome.panic` in the scanner.
* The scan loop is iterated with fuel; `New` supplies `len(buffer) + 1`.
* File opening and reading are outside the model: `New` takes the file name
  and the bytes that were read.
-/

namespace jpg

/-! ## Byte slices -/

/-- A Go byte slice (capacity equal to length). -/
abbrev Bytes := List UInt8

/-- The slice expression `s[lo:hi]`; `none` is the panic "slice bounds out of range". -/
def slice (s : Bytes) (lo hi : Nat) : Option Bytes :=
  if lo ≤ hi ∧ hi ≤ s.length then some ((s.drop lo).take (hi - lo)) else none

/-- The slice expression `s[lo:]`. -/
def sliceFrom (s : Bytes) (lo : Nat) : Option Bytes :=
  if lo ≤ s.length then some (s.drop lo) else none

/-- The index expression `s[i]`; `none` is the panic "index out of range". -/
def index (s : Bytes) (i : Nat) : Option UInt8 := s[i]?

/-! ## `encoding/binary` -/

/-- The two byte orders of `encoding/binary`. -/
inductive ByteOrder
  | BigEndian
  | LittleEndian
deriving DecidableEq, Repr

/-- The function `binary.BigEndian.Uint16`: `uint16(b[1]) | uint16(b[0])<<8` after the bounds check `_ = b[1]`. -/
def BigEndian.Uint16 (b : Bytes) : Option Nat :=
  match b with
  | b0 :: b1 :: _ => some (b1.toNat ||| (b0.toNat <<< 8))
  | _ => none

/-- The function `binary.LittleEndian.Uint16`: `uint16(b[0]) | uint16(b[1])<<8`. -/
def LittleEndian.Uint16 (b : Bytes) : Option Nat :=
  match b with
  | b0 :: b1 :: _ => some (b0.toNat ||| (b1.toNat <<< 8))
  | _ => none

/-- The function `binary.BigEndian.Uint32`:
`uint32(b[3]) | uint32(b[2])<<8 | uint32(b[1])<<16 | uint32(b[0])<<24`. -/
def BigEndian.Uint32 (b : Bytes) : Option Nat :=
  match b with
  | b0 :: b1 :: b2 :: b3 :: _ =>
    some (b3.toNat ||| (b2.toNat <<< 8) ||| (b1.toNat <<< 16) ||| (b0.toNat <<< 24))
  | _ => none

/-- The function `binary.LittleEndian.Uint32`:
`uint32(b[0]) | uint32(b[1])<<8 | uint32(b[2])<<16 | uint32(b[3])<<24`. -/
def LittleEndian.Uint32 (b : Bytes) : Option Nat :=
  match b with
  | b0 :: b1 :: b2 :: b3 :: _ =>
    some (b0.toNat ||| (b1.toNat <<< 8) ||| (b2.toNat <<< 16) ||| (b3.toNat <<< 24))
  | _ => none

/-- The function `binary.BigEndian.Uint64`. -/
def BigEndian.Uint64 (b : Bytes) : Option Nat :=
  match b with
  | b0 :: b1 :: b2 :: b3 :: b4 :: b5 :: b6 :: b7 :: _ =>
    some (b7.toNat ||| (b6.toNat <<< 8) ||| (b5.toNat <<< 16) ||| (b4.toNat <<< 24) |||
      (b3.toNat <<< 32) ||| (b2.toNat <<< 40) ||| (b1.toNat <<< 48) ||| (b0.toNat <<< 56))
  | _ => none

/-- The function `binary.LittleEndian.Uint64`. -/
def LittleEndian.Uint64 (b : Bytes) : Option Nat :=
  match b with
  | b0 :: b1 :: b2 :: b3 :: b4 :: b5 :: b6 :: b7 :: _ =>
    some (b0.toNat ||| (b1.toNat <<< 8) ||| (b2.toNat <<< 16) ||| (b3.toNat <<< 24) |||
      (b4.toNat <<< 32) ||| (b5.toNat <<< 40) ||| (b6.toNat <<< 48) ||| (b7.toNat <<< 56))
  | _ => none

/-- The method `order.Uint16`. -/
def ByteOrder.Uint16 : ByteOrder → Bytes → Option Nat
  | .BigEndian => BigEndian.Uint16
  | .LittleEndian => LittleEndian.Uint16

/-- The method `order.Uint32`. -/
def ByteOrder.Uint32 : ByteOrder → Bytes → Option Nat
  | .BigEndian => BigEndian.Uint32
  | .LittleEndian => LittleEndian.Uint32

/-- The method `order.Uint64`. -/
def ByteOrder.Uint64 : ByteOrder → Bytes → Option Nat
  | .BigEndian => BigEndian.Uint64
  | .LittleEndian => LittleEndian.Uint64

/-- The call `io.ReadFull` of `n` bytes from `bytes.NewReader(data)`; `none` is the
error returned when fewer than `n` bytes are available. -/
def readFull (data : Bytes) (n : Nat) : Option Bytes :=
  if n ≤ data.length then some (data.take n) else none

/-- The conversion `int8(x)` of a byte. -/
def toInt8 (u : Nat) : Int :=
  if u % 2 ^ 8 < 2 ^ 7 then (u % 2 ^ 8 : Nat) else (u % 2 ^ 8 : Nat) - 2 ^ 8

/-- The conversion `int16(x)` of a `uint16`. -/
def toInt16 (u : Nat) : Int :=
  if u % 2 ^ 16 < 2 ^ 15 then (u % 2 ^ 16 : Nat) else (u % 2 ^ 16 : Nat) - 2 ^ 16

/-- The conversion `int32(x)` of a `uint32`. -/
def toInt32 (u : Nat) : Int :=
  if u % 2 ^ 32 < 2 ^ 31 then (u % 2 ^ 32 : Nat) else (u % 2 ^ 32 : Nat) - 2 ^ 32

/-- The call `binary.Read(bytes.NewReader(data), order, &value)` for `value` of type
`uint32`, given the value the variable held before; the returned error is
dropped by every caller, so a short read leaves the variable as it was. -/
def readUint32 (data : Bytes) (order : ByteOrder) (value : Nat) : Nat :=
  match readFull data 4 with
  | none => value
  | some bs => (order.Uint32 bs).getD value

/-- The call `binary.Read` into an `int32` variable: `int32(order.Uint32(bs))`. -/
def readInt32 (data : Bytes) (order : ByteOrder) (value : Int) : Int :=
  match readFull data 4 with
  | none => value
  | some bs => ((order.Uint32 bs).map toInt32).getD value

/-- The call `binary.Read` into an `int16` variable: `int16(order.Uint16(bs))`. -/
def readInt16 (data : Bytes) (order : ByteOrder) (value : Int) : Int :=
  match readFull data 2 with
  | none => value
  | some bs => ((order.Uint16 bs).map toInt16).getD value

/-- The call `binary.Read` into a `float32` variable, as the IEEE-754 bit pattern
handed to `math.Float32frombits`. -/
def readFloat32Bits (data : Bytes) (order : ByteOrder) (value : Nat) : Nat :=
  match readFull data 4 with
  | none => value
  | some bs => (order.Uint32 bs).getD value

/-- The call `binary.Read` into a `float64` variable, as the IEEE-754 bit pattern
handed to `math.Float64frombits`. -/
def readFloat64Bits (data : Bytes) (order : ByteOrder) (value : Nat) : Nat :=
  match readFull data 8 with
  | none => value
  | some bs => (order.Uint64 bs).getD value

/-! ## EXIF entry data -/

/-- Modelled from the spec: the struct `DataFormat` is declared outside
`functions.go`; `EntryDataOf` reads only its field `Format`. -/
structure DataFormat where
  Format : String
deriving DecidableEq, Repr

/-- Modelled from the spec: the struct `UnsignedRational`, two 32-bit
unsigned integers, declared outside `functions.go`. -/
structure UnsignedRational where
  Denominator : Nat
  Numerator : Nat
deriving DecidableEq, Repr

/-- Modelled from the spec: the struct `SignedRational`, two 32-bit signed
integers, declared outside `functions.go`. -/
structure SignedRational where
  Denominator : Int
  Numerator : Int
deriving DecidableEq, Repr

/-- The dynamic values `EntryDataOf` returns in its empty-interface result. -/
inductive Value
  | bytes (data : Bytes)
  | string (data : Bytes)
  | uint16 (v : Nat)
  | uint32 (v : Nat)
  | unsignedRational (v : UnsignedRational)
  | int8 (v : Int)
  | int16 (v : Int)
  | int32 (v : Int)
  | signedRational (v : SignedRational)
  | float32 (bits : Nat)
  | float64 (bits : Nat)
deriving DecidableEq, Repr

/-- The function `EntryDataOf`; `none` is a run-time panic. -/
def EntryDataOf (data : Bytes) (df : DataFormat) (endianness : ByteOrder) : Option Value :=
  if df.Format = "unsigned byte" then
    some (.bytes data)
  else if df.Format = "ascii strings" then
    some (.string data)
  else if df.Format = "unsigned short" then
    if endianness = .BigEndian then
      (BigEndian.Uint16 data).map .uint16
    else
      (LittleEndian.Uint16 data).map .uint16
  else if df.Format = "unsigned long" then
    if endianness = .BigEndian then
      (BigEndian.Uint32 data).map .uint32
    else
      (LittleEndian.Uint32 data).map .uint32
  else if df.Format = "unsigned rational" then
    if endianness = .BigEndian then
      match slice data 0 4 with
      | none => none
      | some d =>
        match slice data 4 8 with
        | none => none
        | some n =>
          some (.unsignedRational
            { Denominator := readUint32 d .BigEndian 0, Numerator := readUint32 n .BigEndian 0 })
    else
      match slice data 0 4 with
      | none => none
      | some d =>
        match slice data 4 8 with
        | none => none
        | some n =>
          some (.unsignedRational
            { Denominator := readUint32 d .BigEndian 0, Numerator := readUint32 n .BigEndian 0 })
  else if df.Format = "signed byte" then
    (index data 0).map fun b => .int8 (toInt8 b.toNat)
  else if df.Format = "undefined" then
    some (.bytes data)
  else if df.Format = "signed short" then
    if endianness = .BigEndian then
      some (.int16 (readInt16 data .BigEndian 0))
    else
      some (.int16 (readInt16 data .LittleEndian 0))
  else if df.Format = "signed long" then
    if endianness = .BigEndian then
      some (.int32 (readInt32 data .BigEndian 0))
    else
      some (.int32 (readInt32 data .LittleEndian 0))
  else if df.Format = "signed rational" then
    if endianness = .BigEndian then
      match slice data 0 4 with
      | none => none
      | some d =>
        match slice data 4 8 with
        | none => none
        | some n =>
          some (.signedRational
            { Denominator := readInt32 d .BigEndian 0, Numerator := readInt32 n .BigEndian 0 })
    else
      match slice data 0 4 with
      | none => none
      | some d =>
        match slice data 4 8 with
        | none => none
        | some n =>
          some (.signedRational
            { Denominator := readInt32 d .BigEndian 0, Numerator := readInt32 n .BigEndian 0 })
  else if df.Format = "signed float" then
    if endianness = .BigEndian then
      some (.float32 (readFloat32Bits data .BigEndian 0))
    else
      some (.float32 (readFloat32Bits data .LittleEndian 0))
  else if df.Format = "double float" then
    if endianness = .BigEndian then
      some (.float64 (readFloat64Bits data .BigEndian 0))
    else
      some (.float64 (readFloat64Bits data .LittleEndian 0))
  else
    some (.bytes data)

/-- The twelve format names that `EntryDataOf` has a case for. -/
def recognizedFormats : List String :=
  ["unsigned byte", "ascii strings", "unsigned short", "unsigned long", "unsigned rational",
   "signed byte", "undefined", "signed short", "signed long", "signed rational",
   "signed float", "double float"]

/-! ## The segment scanner -/

/-- Modelled from the spec: the constant `SOISegment` is declared outside
`functions.go`; the start-of-image marker is `FF D8`. -/
def SOISegment : UInt8 × UInt8 := (0xff, 0xd8)

/-- Modelled from the spec: the constant `EOISegment` is declared outside
`functions.go`; the end-of-image marker is `FF D9`. -/
def EOISegment : UInt8 × UInt8 := (0xff, 0xd9)

/-- The function `isJPG`; `none` is the `nil` error. -/
def isJPG (soi eoi : UInt8 × UInt8) : Option String :=
  if soi ≠ SOISegment ∧ eoi ≠ EOISegment then
    some "It is not a JPEG file, SOI and/or DOI does not found."
  else
    none

/-- Modelled from the spec: the sub-parsers `parseEXIF`, `parseAPP`,
`parseICC`, `parseSegment`, `parseCOM`, `parseDQT`, `parseSOF`, `parseDHT`
and `parseSOS` are defined outside `functions.go`; each takes the raw
bytes of a segment and its declared length and returns a segment value. -/
inductive SubParser
  | parseEXIF
  | parseAPP
  | parseICC
  | parseSegment
  | parseCOM
  | parseDQT
  | parseSOF
  | parseDHT
  | parseSOS
deriving DecidableEq, Repr

/-- An element of `jpg.Segments`: the value of the call
`handler(raw, length)`, kept as the call itself. -/
structure Segment where
  handler : SubParser
  raw : Bytes
  length : Nat
deriving DecidableEq, Repr

/-- Modelled from the spec: the struct `JPG` is declared outside
`functions.go`; these are the fields `New` assigns. `Data` is `none` while
it is the nil slice. -/
structure JPG where
  Segments : List Segment
  Name : String
  SOI : UInt8 × UInt8
  EOI : UInt8 × UInt8
  Data : Option Bytes
  EncodingAlgorithm : String
deriving DecidableEq, Repr

/-- The variables of `New` that live across iterations of the loop `L`. -/
structure ScanState where
  jpg : JPG
  offset : Nat
  isHuffman : Bool
deriving DecidableEq, Repr

/-- The first case condition of the switch: the marker equals one of
`FF E0` .. `FF EF`. -/
def isAPP (marker : Bytes) : Bool :=
  marker = [0xff, 0xe0] || marker = [0xff, 0xe1] || marker = [0xff, 0xe2] ||
  marker = [0xff, 0xe3] || marker = [0xff, 0xe4] || marker = [0xff, 0xe5] ||
  marker = [0xff, 0xe6] || marker = [0xff, 0xe7] || marker = [0xff, 0xe8] ||
  marker = [0xff, 0xe9] || marker = [0xff, 0xea] || marker = [0xff, 0xeb] ||
  marker = [0xff, 0xec] || marker = [0xff, 0xed] || marker = [0xff, 0xee] ||
  marker = [0xff, 0xef]

/-- The case condition of the frame-header case. -/
def isSOF (marker : Bytes) : Bool :=
  marker = [0xff, 0xc0] || marker = [0xff, 0xc1] || marker = [0xff, 0xc2] ||
  marker = [0xff, 0xc3] || marker = [0xff, 0xc5] || marker = [0xff, 0xc6]

/-- The string `"Exif\x00\x00"` as bytes. -/
def exifId : Bytes := [0x45, 0x78, 0x69, 0x66, 0x00, 0x00]

/-- The string `"JFIF\x00"` as bytes. -/
def jfifId : Bytes := [0x4a, 0x46, 0x49, 0x46, 0x00]

/-- The string `"ICC_PROFILE"` as bytes. -/
def iccId : Bytes := [0x49, 0x43, 0x43, 0x5f, 0x50, 0x52, 0x4f, 0x46, 0x49, 0x4c, 0x45]

/-- How the switch statement of one iteration ends. -/
inductive Switch
  | fallthrough (st : ScanState)
  | breakL (st : ScanState)
  | panic
deriving DecidableEq, Repr

/-- The statements `var s = p(buffer[offset:offset+length+2], length)` and
`jpg.Segments = append(jpg.Segments, s)`. -/
def appendSegment (buffer : Bytes) (st : ScanState) (length : Nat) (p : SubParser) :
    Option ScanState :=
  match slice buffer st.offset (st.offset + length + 2) with
  | none => none
  | some raw =>
    some { st with jpg := { st.jpg with Segments := st.jpg.Segments ++ [⟨p, raw, length⟩] } }

/-- The switch statement in the body of the loop `L`. -/
def scanSwitch (buffer : Bytes) (st : ScanState) (length : Nat) : Switch :=
  match slice buffer st.offset (st.offset + 2) with
  | none => .panic
  | some marker =>
    if isAPP marker then
      match slice buffer (st.offset + 4) (st.offset + 15) with
      | none => .panic
      | some identifier =>
        if identifier.take 6 = exifId then
          match appendSegment buffer st length .parseEXIF with
          | none => .panic
          | some st1 => .fallthrough st1
        else if identifier.take 5 = jfifId then
          match appendSegment buffer st length .parseAPP with
          | none => .panic
          | some st1 => .fallthrough st1
        else if identifier = iccId then
          match appendSegment buffer st length .parseICC with
          | none => .panic
          | some st1 => .fallthrough st1
        else
          match appendSegment buffer st length .parseSegment with
          | none => .panic
          | some st1 => .fallthrough st1
    else if marker = [0xff, 0xfe] then
      match appendSegment buffer st length .parseCOM with
      | none => .panic
      | some st1 => .fallthrough st1
    else if marker = [0xff, 0xdb] then
      match appendSegment buffer st length .parseDQT with
      | none => .panic
      | some st1 => .fallthrough st1
    else if isSOF marker then
      match appendSegment buffer st length .parseSOF with
      | none => .panic
      | some st1 => .fallthrough st1
    else if marker = [0xff, 0xc4] then
      match appendSegment buffer { st with isHuffman := if !st.isHuffman then true else st.isHuffman }
          length .parseDHT with
      | none => .panic
      | some st1 => .fallthrough st1
    else if marker = [0xff, 0xda] then
      match appendSegment buffer st length .parseSOS with
      | none => .panic
      | some st1 =>
        match sliceFrom buffer (st.offset + length + 2) with
        | none => .panic
        | some data => .fallthrough { st1 with jpg := { st1.jpg with Data := some data } }
    else
      match index buffer st.offset with
      | none => .panic
      | some b =>
        if b = 0xff then
          match appendSegment buffer st length .parseSegment with
          | none => .panic
          | some st1 => .fallthrough st1
        else
          .breakL st

/-- How one iteration of the loop `L` ends. -/
inductive Step
  | next (st : ScanState)
  | stop (st : ScanState)
  | panic
deriving DecidableEq, Repr

/-- One iteration of the loop `L`: the length field is read first, then the
switch runs, then `offset += length + 2`. -/
def scanStep (buffer : Bytes) (st : ScanState) : Step :=
  match slice buffer (st.offset + 2) (st.offset + 4) with
  | none => .panic
  | some field =>
    match BigEndian.Uint16 field with
    | none => .panic
    | some length =>
      match scanSwitch buffer st length with
      | .panic => .panic
      | .breakL st1 => .stop st1
      | .fallthrough st1 => .next { st1 with offset := st1.offset + length + 2 }

/-- What the loop `L` does: it leaves with a final state or panics. -/
inductive LoopResult
  | done (st : ScanState)
  | panic
deriving DecidableEq, Repr

/-- The loop `L`, iterated at most `fuel` times; `none` when the fuel runs out. -/
def scanLoop : Nat → Bytes → ScanState → Option LoopResult
  | 0, _, _ => none
  | fuel + 1, buffer, st =>
    match scanStep buffer st with
    | .panic => some .panic
    | .stop st1 => some (.done st1)
    | .next st1 => scanLoop fuel buffer st1

/-- The state after `n` complete iterations of the loop `L` starting from
`st`; `none` when the loop has left or panicked before. -/
def iterate : Nat → Bytes → ScanState → Option ScanState
  | 0, _, st => some st
  | n + 1, buffer, st =>
    match scanStep buffer st with
    | .next st1 => iterate n buffer st1
    | _ => none

/-- The value of the call `isJPG(soi, eoi)` that `New` evaluates and drops:
`soi` is `buffer[0], buffer[1]` and `eoi` is `buffer[len-1], buffer[len-2]`.
The outer `none` is an index panic. -/
def checkMarkers (buffer : Bytes) : Option (Option String) :=
  match index buffer 0, index buffer 1 with
  | some s0, some s1 =>
    match index buffer (buffer.length - 1), index buffer (buffer.length - 2) with
    | some e0, some e1 => some (isJPG (s0, s1) (e0, e1))
    | _, _ => none
  | _, _ => none

/-- The state in which `New` enters the loop `L`. -/
def initState (name : String) : ScanState :=
  { jpg := { Segments := [], Name := name, SOI := SOISegment, EOI := EOISegment,
             Data := none, EncodingAlgorithm := "" },
    offset := 2,
    isHuffman := false }

/-- The statements of `New` after the loop `L`. -/
def finish (st : ScanState) : JPG :=
  if st.isHuffman then { st.jpg with EncodingAlgorithm := "Huffman coding" } else st.jpg

/-- How a call of `New` ends once the file has been read: it returns
`jpg, nil` or panics. -/
inductive Outcome
  | returned (jpg : JPG)
  | panic
deriving DecidableEq, Repr

/-- The function `New` from the point where `buffer` holds the bytes of
the file; `name` is `file.Name()`. The result is `none` only if the loop
has not ended within `len(buffer) + 1` iterations. -/
def New (name : String) (buffer : Bytes) : Option Outcome :=
  match checkMarkers buffer with
  | none => some .panic
  | some _ =>
    match scanLoop (buffer.length + 1) buffer (initState name) with
    | none => none
    | some .panic => some .panic
    | some (.done st) => some (.returned (finish st))

/-! ## Reading the buffer by position

These definitions are not in the source: they name the buffer contents that
the statements below speak about. -/

/-- The byte at position `i`, `0` past the end. -/
def byteAt (buffer : Bytes) (i : Nat) : UInt8 := buffer.getD i 0

/-- The declared length at cursor `c`: the big-endian 16-bit value of the
two bytes at `c+2` and `c+3`. -/
def lengthAt (buffer : Bytes) (c : Nat) : Nat :=
  (byteAt buffer (c + 2)).toNat * 2 ^ 8 + (byteAt buffer (c + 3)).toNat

/-- The second marker bytes of the sixteen application markers. -/
def appCodes : List UInt8 :=
  [0xe0, 0xe1, 0xe2, 0xe3, 0xe4, 0xe5, 0xe6, 0xe7, 0xe8, 0xe9, 0xea, 0xeb, 0xec, 0xed, 0xee, 0xef]

/-- The second marker bytes of the six frame-header markers. -/
def sofCodes : List UInt8 := [0xc0, 0xc1, 0xc2, 0xc3, 0xc5, 0xc6]

/-- The sub-parser of an application segment at cursor `c`, read off the
buffer bytes from `c+4` on. -/
def appHandlerAt (buffer : Bytes) (c : Nat) : SubParser :=
  if (buffer.drop (c + 4)).take 6 = exifId then .parseEXIF
  else if (buffer.drop (c + 4)).take 5 = jfifId then .parseAPP
  else if (buffer.drop (c + 4)).take 11 = iccId then .parseICC
  else .parseSegment

/-- The sub-parser for the marker `FF x` at cursor `c`. -/
def handlerAt (buffer : Bytes) (c : Nat) : SubParser :=
  let x := byteAt buffer (c + 1)
  if x ∈ appCodes then appHandlerAt buffer c
  else if x = 0xfe then .parseCOM
  else if x = 0xdb then .parseDQT
  else if x ∈ sofCodes then .parseSOF
  else if x = 0xc4 then .parseDHT
  else if x = 0xda then .parseSOS
  else .parseSegment

/-- One iteration of the loop, written by cases on the buffer contents. -/
def stepSpec (buffer : Bytes) (st : ScanState) : Step :=
  let c := st.offset
  let x := byteAt buffer (c + 1)
  let len := lengthAt buffer c
  if buffer.length < c + 4 then .panic
  else if byteAt buffer c ≠ 0xff then .stop st
  else if x ∈ appCodes ∧ buffer.length < c + 15 then .panic
  else if buffer.length < c + len + 2 then .panic
  else
    .next
      { jpg :=
          { st.jpg with
            Segments := st.jpg.Segments ++ [⟨handlerAt buffer c, (buffer.drop c).take (len + 2), len⟩]
            Data := if x = 0xda then some (buffer.drop (c + len + 2)) else st.jpg.Data }
        offset := c + len + 2
        isHuffman := st.isHuffman || decide (x = 0xc4) }

/-- The segment sequence `segs` tiles the buffer from cursor `c` to cursor
`e`: each segment starts where the one before it ended, at a byte `FF`,
carries the declared length found at `c+2..c+3`, is made of exactly the
bytes `buffer[c .. c+length+2)`, and was produced by the sub-parser for the
marker found there. -/
def Tiles (buffer : Bytes) : Nat → List Segment → Nat → Prop
  | c, [], e => e = c
  | c, s :: rest, e =>
    c + 4 ≤ buffer.length ∧ byteAt buffer c = 0xff ∧ s.length = lengthAt buffer c ∧
    c + s.length + 2 ≤ buffer.length ∧ s.raw = (buffer.drop c).take (s.length + 2) ∧
    s.handler = handlerAt buffer c ∧ Tiles buffer (c + s.length + 2) rest e

/-- The predicate `Tiles` is decidable. -/
instance Tiles.instDecidable (buffer : Bytes) :
    ∀ (c : Nat) (segs : List Segment) (e : Nat), Decidable (Tiles buffer c segs e)
  | c, [], e => inferInstanceAs (Decidable (e = c))
  | c, s :: rest, e =>
    have := Tiles.instDecidable buffer (c + s.length + 2) rest e
    inferInstanceAs (Decidable
      (c + 4 ≤ buffer.length ∧ byteAt buffer c = 0xff ∧ s.length = lengthAt buffer c ∧
        c + s.length + 2 ≤ buffer.length ∧ s.raw = (buffer.drop c).take (s.length + 2) ∧
        s.handler = handlerAt buffer c ∧ Tiles buffer (c + s.length + 2) rest e))

/-- The flag `isHuffman` is set iff a segment with marker `FF C4` has been
appended, and `EncodingAlgorithm` still has its zero value. -/
def HuffmanInv (st : ScanState) : Prop :=
  (st.isHuffman = true ↔ ∃ s ∈ st.jpg.Segments, s.raw.take 2 = [0xff, 0xc4]) ∧
  st.jpg.EncodingAlgorithm = ""

/-! ## The tag catalogs -/

/-- Modelled from the spec: the struct `IFDTag` is declared outside
`functions.go`; the map literals assign its fields `Name` and
`Description`. -/
structure IFDTag where
  Name : String
  Description : String
deriving DecidableEq, Repr

/-- The map literal `IFDTags` of `findIFD0Tag` (main image directory). -/
def IFD0Tags : List (UInt16 × IFDTag) :=
  [
    (0x010e, ⟨"Image Description",
      "Describes image"⟩),
    (0x010f, ⟨"Make",
      "Show manufacturer of digicam"⟩),
    (0x0110, ⟨"Model",
      "Shows model number of digicam"⟩),
    (0x0112, ⟨"Orientation",
      "The orientation of the camera relative to the scene, when the image wa captured. The start point of stored data is,\x271\x27 means upper left, \x273\x27 lower right, \x276\x27 upper left, \x278\x27 lower left, \x279\x27 undefined."⟩),
    (0x011a, ⟨"XResolution",
      "Display/Print resolution of image"⟩),
    (0x011b, ⟨"YResolution",
      "Display/Print resolution of image"⟩),
    (0x0128, ⟨"ResolutionUnit",
      "Unit of XResolution/YResolution. Same meaning that JFIF image density."⟩),
    (0x0131, ⟨"Software",
      "Shows firmware(internal software of digicam) version number."⟩),
    (0x0132, ⟨"DateTime",
      "Date/Time of image was last modified. Format is \x27YYYY:MM:DD\x27."⟩),
    (0x013e, ⟨"WhitePoint",
      "Defines chromaticity of white point of the image"⟩),
    (0x013f, ⟨"PrimaryChromaticities",
      "Defines chromaticity of the primaries of the image"⟩),
    (0x0211, ⟨"YCbCrCoefficients",
      "When image is YCbCr, this vaule shows a constant to translate it to RGB format"⟩),
    (0x0213, ⟨"YCbCrPositioning",
      "When image is YCbCr and uses Subsampling, defines the chroma sample pint of subsamplng pixe array. \x271\x27 means the center pixel array, \x272\x27 means the datum point"⟩),
    (0x0214, ⟨"ReferenceBlackWhite",
      "Shows reference value of black point/white point"⟩),
    (0x8298, ⟨"CopyRight",
      "Shows copyright information"⟩),
    (0x8769, ⟨"ExitOffset",
      "offset to Exit Sub IFD"⟩)
  ]

/-- The function `findIFD0Tag`: the map index expression `IFDTags[idx]`, which
yields the zero value of `IFDTag` for a key that is not in the map. -/
def findIFD0Tag (idx : UInt16) : IFDTag :=
  (IFD0Tags.lookup idx).getD { Name := "", Description := "" }

/-- The map literal `IFDTags` of `findIFD1Tag` (thumbnail image directory). -/
def IFD1Tags : List (UInt16 × IFDTag) :=
  [
    (0x0100, ⟨"ImageWidth",
      "Shows size of thumbnail image"⟩),
    (0x0101, ⟨"ImageLength",
      "Shows size of thumbnail image"⟩),
    (0x0102, ⟨"BitsPerSample",
      "When image format is no compression, this value shows the number of bits per component for each pixel"⟩),
    (0x0103, ⟨"Compression",
      "Shows compression method. 1 means no compression, 6 means JPEG compression."⟩),
    (0x0106, ⟨"PhotometricInterpretation",
      "Shows the color space of the image components. 1 means monochrome, 2 means RGB, 6 means YCbCr"⟩),
    (0x0111, ⟨"StripOffsets",
      "When image format is no compression, this value shows offset to image data. In some case image data is striped and this value is plural."⟩),
    (0x0115, ⟨"SamplesPerPixel",
      "When image format is no compression, this value shows the number of omponents stored for each pixel"⟩),
    (0x0116, ⟨"RowsPerStrip",
      "When image format is no compression and stored as strip show how many rows stored to each strip. If image has not striped, this value is the same as ImageLength."⟩),
    (0x0117, ⟨"StripByteCounts",
      "When image format is no compression and stored as strip, this value shows how many bytes used for each strip and this value is plural. If image has not stripped, this value is single and means whole data size of image."⟩),
    (0x011a, ⟨"XResolution",
      "Display/Print resolution of image. Large number of digicam uses 1/72inch, but it has no mean because personal computer doesn\x27t use this value to display/print out."⟩),
    (0x011b, ⟨"YResolution",
      "Display/Print resolution of image. Large number of digicam uses 1/72inch, but it has no mean because personal computer doesn\x27t use this value to display/print out."⟩),
    (0x011c, ⟨"PlanarConfiguration",
      "When image format is no compression YCbCr, this value shows byte aligns of YCbCr data. If value is \x271\x27, Y/Cb/Cr value is chunky format, contiguous for each subsampling pixel. If value is \x272\x27, Y/Cb/Cr value is separated and stored to Y plane/Cb plane/Cr plane format."⟩),
    (0x0128, ⟨"ResolutionUnit",
      "Unit of XResolution(0x011a)/YResolution(0x011b). \x271\x27 means inch, \x272\x27 means centimeter."⟩),
    (0x0201, ⟨"JpegIFOffset",
      "When image format is JPEG, this value show offset to JPEG data stored."⟩),
    (0x0202, ⟨"JpegIFByteCount",
      "When image format is JPEG, this value shows data size of JPEG image."⟩),
    (0x0211, ⟨"YCbCrCoefficients",
      "When image format is YCbCr, this value shows constants to translate it to RGB format. In usual, \x270.299/0.587/0.114\x27 are used."⟩),
    (0x0212, ⟨"YCbCrSubSampling",
      "When image format is YCbCr and uses subsampling(cropping of chroma data, all the digicam do that), this value shows how many chroma data subsampled. First value shows horizontal, next value shows vertical subsample rate."⟩),
    (0x0213, ⟨"YCbCrPositioning",
      "When image format is YCbCr and uses \x27Subsampling\x27(cropping of chroma data, all the digicam do that), this value defines the chroma sample point of subsampled pixel array. \x271\x27 means the center of pixel array, \x272\x27 means the datum point(0,0)."⟩),
    (0x0214, ⟨"ReferenceBlackWhite",
      "Shows reference value of black point/white point. In case of YCbCr format, first 2 show black/white of Y, next 2 are Cb, last 2 are Cr. In case of RGB format, first 2 show black/white of R, next 2 are G, last 2 are B."⟩)
  ]

/-- The function `findIFD1Tag`: the map index expression `IFDTags[idx]`, which
yields the zero value of `IFDTag` for a key that is not in the map. -/
def findIFD1Tag (idx : UInt16) : IFDTag :=
  (IFD1Tags.lookup idx).getD { Name := "", Description := "" }

/-- The map literal `IFDTags` of `findSubIFDTag` (sub directory). -/
def SubIFDTags : List (UInt16 × IFDTag) :=
  [
    (0x829a, ⟨"ExposureTime",
      "Exposure time (reciprocal of shutter speed). Unit is second."⟩),
    (0x829d, ⟨"FNumber",
      "The actual F-number(F-stop) of lens when the image was taken."⟩),
    (0x8822, ⟨"ExposureProgram",
      "Exposure program that the camera used when image was taken. \x271\x27 means manual control, \x272\x27 program normal, \x273\x27 aperture priority, \x274\x27 shutter priority, \x275\x27 program creative (slow program), \x276\x27 program action(high-speed program), \x277\x27 portrait mode, \x278\x27 landscape mode."⟩),
    (0x8827, ⟨"ISOSpeedRatings",
      "CCD sensitivity equivalent to Ag-Hr film speedrate."⟩),
    (0x9000, ⟨"ExifVersion ",
      "Exif version number. Stored as 4bytes of ASCII character (like \x220210\x22)"⟩),
    (0x9003, ⟨"DateTimeOriginal",
      "Date/Time of original image taken. This value should not be modified by user program."⟩),
    (0x9004, ⟨"DateTimeDigitized",
      "Date/Time of image digitized. Usually, it contains the same value of DateTimeOriginal(0x9003)."⟩),
    (0x9101, ⟨"ComponentConfiguration",
      "Unknown. It seems value 0x00,0x01,0x02,0x03 always."⟩),
    (0x9102, ⟨"CompressedBitsPerPixel",
      "The average compression ratio of JPEG."⟩),
    (0x9201, ⟨"ShutterSpeedValue",
      "Shutter speed. To convert this value to ordinary \x27Shutter Speed\x27; calculate this value\x27s power of 2, then reciprocal. For example, if value is \x274\x27, shutter speed is 1/(2^4)=1/16 second."⟩),
    (0x9202, ⟨"ApertureValue",
      "The actual aperture value of lens when the image was taken. To convert this value to ordinary F-number(F-stop), calculate this value\x27s power of root 2 (=1.4142). For example, if value is \x275\x27, F-number is 1.4142^5 = F5.6."⟩),
    (0x9203, ⟨"BrightnessValue",
      "Brightness of taken subject, unit is EV."⟩),
    (0x9204, ⟨"ExposureBiasValue",
      "Exposure bias value of taking picture. Unit is EV."⟩),
    (0x9205, ⟨"MaxApertureValue ",
      "Maximum aperture value of lens. You can convert to F-number by calculating power of root 2 (same process of ApertureValue(0x9202)."⟩),
    (0x9206, ⟨"SubjectDistance",
      "Distance to focus point, unit is meter."⟩),
    (0x9207, ⟨"MeteringMode",
      "Exposure metering method. \x271\x27 means average, \x272\x27 center weighted average, \x273\x27 spot, \x274\x27 multi-spot, \x275\x27 multi-segment."⟩),
    (0x9208, ⟨"LightSource",
      "Light source, actually this means white balance setting. \x270\x27 means auto, \x271\x27 daylight, \x272\x27 fluorescent, \x273\x27 tungsten, \x2710\x27 flash."⟩),
    (0x9209, ⟨"Flash",
      "\x271\x27 means flash was used, \x270\x27 means not used."⟩),
    (0x920a, ⟨"FocalLength",
      "Focal length of lens used to take image. Unit is millimeter."⟩),
    (0x927c, ⟨"MakerNote",
      "Maker dependent internal data. Some of maker such as Olympus/Nikon/Sanyo etc. uses IFD format for this area."⟩),
    (0x9286, ⟨"UserComment",
      "Stores user comment."⟩),
    (0xa000, ⟨"FlashPixVersion",
      "Stores FlashPix version. Unknown but 4bytes of ASCII characters \x220100\x22exists."⟩),
    (0xa001, ⟨"ColorSpace",
      "Unknown, value is \x271\x27."⟩),
    (0xa002, ⟨"ExifImageWidth",
      "Size of main image."⟩),
    (0xa003, ⟨"ExifImageHeight",
      "Size of main image."⟩),
    (0xa004, ⟨"RelatedSoundFile",
      "If this digicam can record audio data with image, shows name of audio data."⟩),
    (0xa005, ⟨"ExifInteroperabilityOffset",
      "Extension of \x22ExifR98\x22, detail is unknown. This value is offset to IFD format data. Currently there are 2 directory entries, first one is Tag0x0001, value is \x22R98\x22, next is Tag0x0002, value is \x220100\x22."⟩),
    (0xa20e, ⟨"FocalPlaneXResolution",
      "CCD\x27s pixel density."⟩),
    (0xa20f, ⟨"FocalPlaneYResolution",
      "CCD\x27s pixel density."⟩),
    (0xa210, ⟨"FocalPlaneResolutionUnit",
      "Unit of FocalPlaneXResoluton/FocalPlaneYResolution. \x271\x27 means no-unit, \x272\x27 inch, \x273\x27 centimeter."⟩),
    (0xa217, ⟨"SensingMethod",
      "Shows type of image sensor unit. \x272\x27 means 1 chip color area sensor, most of all digicam use this type."⟩),
    (0xa300, ⟨"FileSource ",
      "Unknown but value is \x273\x27."⟩),
    (0xa301, ⟨"SceneType",
      "Unknown but value is \x271\x27."⟩)
  ]

/-- The function `findSubIFDTag`: the map index expression `IFDTags[idx]`, which
yields the zero value of `IFDTag` for a key that is not in the map. -/
def findSubIFDTag (idx : UInt16) : IFDTag :=
  (SubIFDTags.lookup idx).getD { Name := "", Description := "" }

/-- The count in the words of the specification: the number of `FF`-led
markers found at successive cursor positions from `c` on, stepping by
`length + 2`, before the first cursor position whose first byte is not `FF`
or whose marker is the scan header `FF DA`; `fuel` bounds the number of
positions visited. -/
def markersBeforeScanHeader (buffer : Bytes) : Nat → Nat → Nat
  | 0, _ => 0
  | fuel + 1, c =>
    if byteAt buffer c ≠ 0xff ∨ byteAt buffer (c + 1) = 0xda then 0
    else markersBeforeScanHeader buffer fuel (c + lengthAt buffer c + 2) + 1

/-- The same count with the scan-header marker itself counted as the last
marker. -/
def markersThroughScanHeader (buffer : Bytes) : Nat → Nat → Nat
  | 0, _ => 0
  | fuel + 1, c =>
    if byteAt buffer c ≠ 0xff then 0
    else if byteAt buffer (c + 1) = 0xda then 1
    else markersThroughScanHeader buffer fuel (c + lengthAt buffer c + 2) + 1

/-- The number of `FF`-led markers found at successive cursor positions
from `c` on, stepping by `length + 2`, before the first cursor position
whose first byte is not `FF`. -/
def markersBeforeNonFF (buffer : Bytes) : Nat → Nat → Nat
  | 0, _ => 0
  | fuel + 1, c =>
    if byteAt buffer c ≠ 0xff then 0
    else markersBeforeNonFF buffer fuel (c + lengthAt buffer c + 2) + 1

/-- What `Data` holds, in terms of the segments appended so far: nothing
while no segment has the marker `FF DA`, and otherwise the rest of the
buffer after the end of the last segment that has it. -/
def DataInv (buffer : Bytes) (st : ScanState) : Prop :=
  ((∀ s ∈ st.jpg.Segments, s.raw.take 2 ≠ [0xff, 0xda]) → st.jpg.Data = none) ∧
  (∀ (pre : List Segment) (s : Segment) (post : List Segment) (c : Nat),
    st.jpg.Segments = pre ++ s :: post → Tiles buffer 2 pre c →
    s.raw.take 2 = [0xff, 0xda] → (∀ t ∈ post, t.raw.take 2 ≠ [0xff, 0xda]) →
    st.jpg.Data = some (buffer.drop (c + lengthAt buffer c + 2)))

/-! ## Arithmetic of the byte-order decoders -/

theorem lor_shiftLeft_eq_add (a b i : Nat) (h : a < 2 ^ i) : a ||| (b <<< i) = b * 2 ^ i + a := by
  rw [Nat.lor_comm, Nat.shiftLeft_eq, Nat.mul_comm b, Nat.mul_add_lt_is_or h]

theorem byte_lt (b : UInt8) : b.toNat < 256 := UInt8.toNat_lt b

theorem or32_eq (b0 b1 b2 b3 : UInt8) :
    b3.toNat ||| (b2.toNat <<< 8) ||| (b1.toNat <<< 16) ||| (b0.toNat <<< 24)
      = b0.toNat * 2 ^ 24 + b1.toNat * 2 ^ 16 + b2.toNat * 2 ^ 8 + b3.toNat := by
  have h0 := byte_lt b0
  have h1 := byte_lt b1
  have h2 := byte_lt b2
  have h3 := byte_lt b3
  rw [lor_shiftLeft_eq_add _ _ 8 h3, lor_shiftLeft_eq_add _ _ 16 (by omega),
    lor_shiftLeft_eq_add _ _ 24 (by omega)]
  omega

theorem be16_eq (b0 b1 : UInt8) : b1.toNat ||| (b0.toNat <<< 8) = b0.toNat * 2 ^ 8 + b1.toNat :=
  lor_shiftLeft_eq_add _ _ 8 (byte_lt b1)

/-! ## Slices and indices -/

theorem slice_of_le {s : Bytes} {lo hi : Nat} (h1 : lo ≤ hi) (h2 : hi ≤ s.length) :
    slice s lo hi = some ((s.drop lo).take (hi - lo)) := by
  simp [slice, h1, h2]

theorem slice_of_gt {s : Bytes} {lo hi : Nat} (h : s.length < hi) : slice s lo hi = none := by
  simp [slice]; omega

theorem drop_eq_byteAt_cons (s : Bytes) (i : Nat) (h : i < s.length) :
    s.drop i = byteAt s i :: s.drop (i + 1) := by
  rw [List.drop_eq_getElem_cons h]
  simp [byteAt, List.getD_eq_getElem?_getD, List.getElem?_eq_getElem h]

theorem slice_two (s : Bytes) (i : Nat) (h : i + 2 ≤ s.length) :
    slice s i (i + 2) = some [byteAt s i, byteAt s (i + 1)] := by
  rw [slice_of_le (by omega) h, drop_eq_byteAt_cons s i (by omega),
    drop_eq_byteAt_cons s (i + 1) (by omega)]
  simp

theorem index_of_lt (s : Bytes) (i : Nat) (h : i < s.length) : index s i = some (byteAt s i) := by
  simp [index, byteAt, List.getD_eq_getElem?_getD, List.getElem?_eq_getElem h]

theorem field_eq (s : Bytes) (c : Nat) (h : c + 4 ≤ s.length) :
    (slice s (c + 2) (c + 4)) = some [byteAt s (c + 2), byteAt s (c + 3)] := by
  have := slice_two s (c + 2) (by omega)
  simpa using this


/-! ## One iteration of the scan loop -/

theorem isAPP_ff (x : UInt8) : isAPP [0xff, x] = decide (x ∈ appCodes) := by
  simp [isAPP, appCodes, Bool.or_assoc]

theorem isAPP_of_ne (y x : UInt8) (h : y ≠ 0xff) : isAPP [y, x] = false := by
  simp [isAPP, h]

theorem isSOF_ff (x : UInt8) : isSOF [0xff, x] = decide (x ∈ sofCodes) := by
  simp [isSOF, sofCodes, Bool.or_assoc]

theorem isSOF_of_ne (y x : UInt8) (h : y ≠ 0xff) : isSOF [y, x] = false := by
  simp [isSOF, h]

theorem scanStep_of_short (buffer : Bytes) (st : ScanState) (h : buffer.length < st.offset + 4) :
    scanStep buffer st = .panic := by
  simp [scanStep, slice_of_gt h]

theorem scanStep_of_not_ff (buffer : Bytes) (st : ScanState) (h : st.offset + 4 ≤ buffer.length)
    (hff : byteAt buffer st.offset ≠ 0xff) : scanStep buffer st = .stop st := by
  simp [scanStep, field_eq buffer st.offset h, BigEndian.Uint16, scanSwitch,
    slice_two buffer st.offset (by omega), isAPP_of_ne _ _ hff, isSOF_of_ne _ _ hff, hff,
    index_of_lt buffer st.offset (by omega)]

theorem appendSegment_of_le (buffer : Bytes) (st : ScanState) (len : Nat) (p : SubParser)
    (h : st.offset + len + 2 ≤ buffer.length) :
    appendSegment buffer st len p =
      some { st with jpg := { st.jpg with
        Segments := st.jpg.Segments ++ [⟨p, (buffer.drop st.offset).take (len + 2), len⟩] } } := by
  have : st.offset + len + 2 - st.offset = len + 2 := by omega
  simp [appendSegment, slice_of_le (show st.offset ≤ st.offset + len + 2 by omega) h, this]

theorem appendSegment_of_gt (buffer : Bytes) (st : ScanState) (len : Nat) (p : SubParser)
    (h : buffer.length < st.offset + len + 2) : appendSegment buffer st len p = none := by
  simp [appendSegment, slice_of_gt h]


theorem scanStep_eq_stepSpec (buffer : Bytes) (st : ScanState) :
    scanStep buffer st = stepSpec buffer st := by
  by_cases h4 : buffer.length < st.offset + 4
  · simp [scanStep_of_short buffer st h4, stepSpec, h4]
  have h4le : st.offset + 4 ≤ buffer.length := by omega
  by_cases hff : byteAt buffer st.offset = 0xff
  swap
  · simp [scanStep_of_not_ff buffer st h4le hff, stepSpec, h4, hff]
  have hlen : BigEndian.Uint16 [byteAt buffer (st.offset + 2), byteAt buffer (st.offset + 3)]
      = some (lengthAt buffer st.offset) := by
    simp [BigEndian.Uint16, be16_eq, lengthAt]
  simp only [scanStep, field_eq buffer st.offset h4le, hlen, scanSwitch,
    slice_two buffer st.offset (by omega), hff, isAPP_ff, isSOF_ff, stepSpec, handlerAt]
  generalize byteAt buffer (st.offset + 1) = x
  generalize lengthAt buffer st.offset = len
  obtain ⟨j, c, hf⟩ := st
  simp only at h4 h4le hff ⊢
  by_cases happ : x ∈ appCodes
  · have hda : x ≠ 0xda := by rintro rfl; revert happ; decide
    have hc4 : x ≠ 0xc4 := by rintro rfl; revert happ; decide
    by_cases h15 : buffer.length < c + 15
    · simp [happ, h15, slice_of_gt h15, h4]
    · have h15le : c + 15 ≤ buffer.length := by omega
      by_cases hL : buffer.length < c + len + 2
      · simp [happ, h15, hL, h4, slice_of_le (show c + 4 ≤ c + 15 by omega) h15le,
          appendSegment_of_gt buffer _ len _ (show buffer.length < (ScanState.mk j c hf).offset + len + 2 from hL)]
      · have hLle : c + len + 2 ≤ buffer.length := by omega
        have e11 : c + 15 - (c + 4) = 11 := by omega
        simp only [happ, h15, hL, h4, slice_of_le (show c + 4 ≤ c + 15 by omega) h15le,
          appendSegment_of_le buffer _ len _ (show (ScanState.mk j c hf).offset + len + 2 ≤ _ from hLle),
          e11, List.take_take, appHandlerAt, hda, hc4]
        simp
        split_ifs <;> simp
  · have k1 : x ∈ sofCodes → x ≠ 0xc4 := by rintro h rfl; revert h; decide
    have k2 : x ∈ sofCodes → x ≠ 0xda := by rintro h rfl; revert h; decide
    have hidx := index_of_lt buffer c (show c < buffer.length by omega)
    by_cases hL : buffer.length < c + len + 2
    · simp [happ, hL, h4, appendSegment_of_gt, hidx, hff]
    · have hLle : c + len + 2 ≤ buffer.length := by omega
      have hs : sliceFrom buffer (c + len + 2) = some (buffer.drop (c + len + 2)) := by
        simp [sliceFrom, hLle]
      simp [happ, hL, h4, appendSegment_of_le, hLle, hs, hidx, hff]
      split_ifs <;> simp_all


theorem scanStep_next_iff (buffer : Bytes) (st st1 : ScanState) :
    scanStep buffer st = .next st1 ↔
      st.offset + 4 ≤ buffer.length ∧ byteAt buffer st.offset = 0xff ∧
      (byteAt buffer (st.offset + 1) ∈ appCodes → st.offset + 15 ≤ buffer.length) ∧
      st.offset + lengthAt buffer st.offset + 2 ≤ buffer.length ∧
      st1 =
        { jpg :=
            { st.jpg with
              Segments := st.jpg.Segments ++
                [⟨handlerAt buffer st.offset,
                  (buffer.drop st.offset).take (lengthAt buffer st.offset + 2),
                  lengthAt buffer st.offset⟩]
              Data := if byteAt buffer (st.offset + 1) = 0xda
                then some (buffer.drop (st.offset + lengthAt buffer st.offset + 2))
                else st.jpg.Data }
          offset := st.offset + lengthAt buffer st.offset + 2
          isHuffman := st.isHuffman || decide (byteAt buffer (st.offset + 1) = 0xc4) } := by
  rw [scanStep_eq_stepSpec]
  simp only [stepSpec]
  by_cases h1 : buffer.length < st.offset + 4
  · rw [if_pos h1]; simp; omega
  rw [if_neg h1]
  by_cases h2 : byteAt buffer st.offset ≠ 0xff
  · rw [if_pos h2]; simp; intro _ h; exact absurd h h2
  rw [if_neg h2]
  by_cases h3 : byteAt buffer (st.offset + 1) ∈ appCodes ∧ buffer.length < st.offset + 15
  · rw [if_pos h3]; simp; intro _ _ h; have := h h3.1; omega
  rw [if_neg h3]
  by_cases h4 : buffer.length < st.offset + lengthAt buffer st.offset + 2
  · rw [if_pos h4]; simp; intro _ _ _; omega
  rw [if_neg h4]
  simp only [Step.next.injEq]
  constructor
  · intro h
    refine ⟨by omega, by simpa using h2, ?_, by omega, h.symm⟩
    intro hx
    by_contra hc
    exact h3 ⟨hx, by omega⟩
  · intro h
    exact h.2.2.2.2.symm

theorem scanStep_stop_iff (buffer : Bytes) (st st1 : ScanState) :
    scanStep buffer st = .stop st1 ↔
      st.offset + 4 ≤ buffer.length ∧ byteAt buffer st.offset ≠ 0xff ∧ st1 = st := by
  rw [scanStep_eq_stepSpec]
  simp only [stepSpec]
  by_cases h1 : buffer.length < st.offset + 4
  · rw [if_pos h1]; simp; omega
  rw [if_neg h1]
  by_cases h2 : byteAt buffer st.offset ≠ 0xff
  · rw [if_pos h2]
    simp only [Step.stop.injEq]
    constructor
    · intro h; exact ⟨by omega, h2, h.symm⟩
    · intro h; exact h.2.2.symm
  rw [if_neg h2]
  have h2eq : byteAt buffer st.offset = 0xff := by simpa using h2
  split_ifs <;> simp [h2eq]

/-! ## The scan loop -/

theorem scanLoop_total (buffer : Bytes) :
    ∀ (fuel : Nat) (st : ScanState), st.offset ≤ buffer.length →
      buffer.length < st.offset + fuel → ∃ r, scanLoop fuel buffer st = some r := by
  intro fuel
  induction fuel with
  | zero => intro st h1 h2; omega
  | succ n ih =>
    intro st h1 h2
    simp only [scanLoop]
    cases hs : scanStep buffer st with
    | panic => exact ⟨_, rfl⟩
    | stop s => exact ⟨_, rfl⟩
    | next s =>
      obtain ⟨_, _, _, hle, rfl⟩ := (scanStep_next_iff buffer st s).mp hs
      exact ih _ (by simpa using hle) (by simp; omega)

theorem scanLoop_of_iterate (buffer : Bytes) :
    ∀ (n fuel : Nat) (s st : ScanState), iterate n buffer s = some st →
      s.offset ≤ buffer.length → buffer.length < s.offset + fuel →
      ∃ fuel1, scanLoop fuel buffer s = scanLoop fuel1 buffer st ∧
        st.offset ≤ buffer.length ∧ buffer.length < st.offset + fuel1 := by
  intro n
  induction n with
  | zero =>
    intro fuel s st h h1 h2
    simp only [iterate, Option.some.injEq] at h
    subst h
    exact ⟨fuel, rfl, h1, h2⟩
  | succ n ih =>
    intro fuel s st h h1 h2
    obtain ⟨f, rfl⟩ : ∃ f, fuel = f + 1 := ⟨fuel - 1, by omega⟩
    simp only [iterate] at h
    cases hs : scanStep buffer s with
    | panic => simp [hs] at h
    | stop s1 => simp [hs] at h
    | next s1 =>
      simp only [hs] at h
      simp only [scanLoop, hs]
      obtain ⟨_, _, _, hle, hs1⟩ := (scanStep_next_iff buffer s s1).mp hs
      have ho : s1.offset = s.offset + lengthAt buffer s.offset + 2 := by rw [hs1]
      exact ih f s1 st h (by omega) (by omega)

theorem checkMarkers_of_le (buffer : Bytes) (h : 2 ≤ buffer.length) :
    ∃ e, checkMarkers buffer = some e := by
  simp only [checkMarkers, index_of_lt buffer 0 (by omega), index_of_lt buffer 1 (by omega),
    index_of_lt buffer (buffer.length - 1) (by omega),
    index_of_lt buffer (buffer.length - 2) (by omega)]
  exact ⟨_, rfl⟩

theorem checkMarkers_of_lt (buffer : Bytes) (h : buffer.length < 2) :
    checkMarkers buffer = none := by
  match buffer, h with
  | [], _ => rfl
  | [_], _ => rfl

theorem New_of_short (name : String) (buffer : Bytes) (h : buffer.length < 2) :
    New name buffer = some .panic := by
  simp [New, checkMarkers_of_lt buffer h]

theorem New_of_le (name : String) (buffer : Bytes) (h : 2 ≤ buffer.length) :
    New name buffer =
      match scanLoop (buffer.length + 1) buffer (initState name) with
      | none => none
      | some .panic => some .panic
      | some (.done st) => some (.returned (finish st)) := by
  obtain ⟨e, he⟩ := checkMarkers_of_le buffer h
  simp [New, he]


theorem New_total (name : String) (buffer : Bytes) : ∃ r, New name buffer = some r := by
  by_cases hlen : buffer.length < 2
  · exact ⟨_, New_of_short name buffer hlen⟩
  rw [New_of_le name buffer (by omega)]
  obtain ⟨r, hr⟩ := scanLoop_total buffer (buffer.length + 1) (initState name)
    (by simp [initState]; omega) (by simp [initState]; omega)
  rw [hr]
  cases r with
  | panic => exact ⟨_, rfl⟩
  | done st => exact ⟨_, rfl⟩

theorem iterate_invariant (buffer : Bytes) (P : ScanState → Prop)
    (hstep : ∀ s s1, P s → scanStep buffer s = .next s1 → P s1) :
    ∀ (n : Nat) (s r : ScanState), iterate n buffer s = some r → P s → P r := by
  intro n
  induction n with
  | zero =>
    intro s r h hP
    simp only [iterate, Option.some.injEq] at h
    exact h ▸ hP
  | succ n ih =>
    intro s r h hP
    simp only [iterate] at h
    cases hs : scanStep buffer s with
    | panic => simp [hs] at h
    | stop s1 => simp [hs] at h
    | next s1 =>
      simp only [hs] at h
      exact ih s1 r h (hstep s s1 hP hs)

theorem scanLoop_done (buffer : Bytes) :
    ∀ (fuel : Nat) (s r : ScanState), scanLoop fuel buffer s = some (.done r) →
      ∃ n, iterate n buffer s = some r ∧ scanStep buffer r = .stop r := by
  intro fuel
  induction fuel with
  | zero => intro s r h; simp [scanLoop] at h
  | succ f ih =>
    intro s r h
    simp only [scanLoop] at h
    cases hs : scanStep buffer s with
    | panic => simp [hs] at h
    | stop s1 =>
      simp only [hs, Option.some.injEq, LoopResult.done.injEq] at h
      subst h
      have := ((scanStep_stop_iff buffer s s1).mp hs).2.2
      subst this
      exact ⟨0, rfl, hs⟩
    | next s1 =>
      simp only [hs] at h
      obtain ⟨n, hn, hstop⟩ := ih s1 r h
      exact ⟨n + 1, by simp [iterate, hs, hn], hstop⟩

theorem New_returned (name : String) (buffer : Bytes) (jpg : JPG)
    (h : New name buffer = some (.returned jpg)) :
    ∃ n r, iterate n buffer (initState name) = some r ∧ scanStep buffer r = .stop r ∧
      jpg = finish r := by
  by_cases hlen : buffer.length < 2
  · simp [New_of_short name buffer hlen] at h
  rw [New_of_le name buffer (by omega)] at h
  cases hl : scanLoop (buffer.length + 1) buffer (initState name) with
  | none => simp [hl] at h
  | some res =>
    cases res with
    | panic => simp [hl] at h
    | done r =>
      simp only [hl, Option.some.injEq, Outcome.returned.injEq] at h
      obtain ⟨n, hn, hstop⟩ := scanLoop_done buffer _ _ _ hl
      exact ⟨n, r, hn, hstop, h.symm⟩

theorem Tiles_append (buffer : Bytes) (s : Segment) :
    ∀ (segs : List Segment) (a b e : Nat), Tiles buffer a segs b → Tiles buffer b [s] e →
      Tiles buffer a (segs ++ [s]) e := by
  intro segs
  induction segs with
  | nil =>
    intro a b e h1 h2
    simp only [Tiles] at h1
    subst h1
    simpa using h2
  | cons t rest ih =>
    intro a b e h1 h2
    simp only [Tiles, List.cons_append] at h1 ⊢
    obtain ⟨p1, p2, p3, p4, p5, p6, p7⟩ := h1
    exact ⟨p1, p2, p3, p4, p5, p6, ih _ _ _ p7 h2⟩

theorem finish_Segments (st : ScanState) : (finish st).Segments = st.jpg.Segments := by
  simp only [finish]
  split_ifs <;> rfl

theorem take_two_raw (buffer : Bytes) (c len : Nat) (h : c + 2 ≤ buffer.length) :
    ((buffer.drop c).take (len + 2)).take 2 = [byteAt buffer c, byteAt buffer (c + 1)] := by
  rw [List.take_take, drop_eq_byteAt_cons buffer c (by omega),
    drop_eq_byteAt_cons buffer (c + 1) (by omega)]
  have : min 2 (len + 2) = 2 := by omega
  simp [this]


/-! ## Rational entries -/

theorem sum32_lt (b0 b1 b2 b3 : UInt8) :
    b0.toNat * 2 ^ 24 + b1.toNat * 2 ^ 16 + b2.toNat * 2 ^ 8 + b3.toNat < 2 ^ 32 := by
  have h0 := byte_lt b0
  have h1 := byte_lt b1
  have h2 := byte_lt b2
  have h3 := byte_lt b3
  omega

theorem toInt32_of_lt (u : Nat) (h : u < 2 ^ 32) :
    toInt32 u = if u < 2 ^ 31 then (u : Int) else (u : Int) - 2 ^ 32 := by
  simp only [toInt32, Nat.mod_eq_of_lt h]

theorem unsigned_rational_eq (b0 b1 b2 b3 b4 b5 b6 b7 : UInt8) (order : ByteOrder) :
    EntryDataOf [b0, b1, b2, b3, b4, b5, b6, b7] ⟨"unsigned rational"⟩ order
      = some (.unsignedRational
          { Denominator := b0.toNat * 2 ^ 24 + b1.toNat * 2 ^ 16 + b2.toNat * 2 ^ 8 + b3.toNat,
            Numerator := b4.toNat * 2 ^ 24 + b5.toNat * 2 ^ 16 + b6.toNat * 2 ^ 8 + b7.toNat }) := by
  cases order <;>
    simp [EntryDataOf, slice, readUint32, readFull, ByteOrder.Uint32, BigEndian.Uint32, or32_eq]

theorem signed_rational_eq (b0 b1 b2 b3 b4 b5 b6 b7 : UInt8) (order : ByteOrder) :
    EntryDataOf [b0, b1, b2, b3, b4, b5, b6, b7] ⟨"signed rational"⟩ order
      = some (.signedRational
          { Denominator :=
              toInt32 (b0.toNat * 2 ^ 24 + b1.toNat * 2 ^ 16 + b2.toNat * 2 ^ 8 + b3.toNat),
            Numerator :=
              toInt32 (b4.toNat * 2 ^ 24 + b5.toNat * 2 ^ 16 + b6.toNat * 2 ^ 8 + b7.toNat) }) := by
  cases order <;>
    simp [EntryDataOf, slice, readInt32, readFull, ByteOrder.Uint32, BigEndian.Uint32, or32_eq]


/-! ## Which sub-parser a marker gets -/

theorem appHandlerAt_ne_parseSOF (buffer : Bytes) (c : Nat) :
    appHandlerAt buffer c ≠ .parseSOF := by
  simp only [appHandlerAt]
  split_ifs <;> simp

theorem handlerAt_eq_parseSOF_iff (buffer : Bytes) (c : Nat) :
    handlerAt buffer c = .parseSOF ↔ byteAt buffer (c + 1) ∈ sofCodes := by
  simp only [handlerAt]
  generalize byteAt buffer (c + 1) = x
  have k : x ∈ sofCodes → x ∉ appCodes ∧ x ≠ 0xfe ∧ x ≠ 0xdb := by
    intro h
    refine ⟨?_, ?_, ?_⟩
    · intro h2
      simp only [sofCodes, appCodes, List.mem_cons, List.mem_singleton, List.not_mem_nil,
        or_false] at h h2
      rcases h with rfl | rfl | rfl | rfl | rfl | rfl <;> (revert h2; decide)
    · rintro rfl; revert h; decide
    · rintro rfl; revert h; decide
  constructor
  · intro h
    by_contra hc
    split_ifs at h; simp_all [appHandlerAt_ne_parseSOF]
  · intro h
    obtain ⟨k1, k2, k3⟩ := k h
    simp [k1, k2, k3, h]


/-! ## Invariants of the scan -/

theorem Tiles_step (buffer : Bytes) (c0 : Nat) (s s1 : ScanState)
    (hP : Tiles buffer c0 s.jpg.Segments s.offset) (hs : scanStep buffer s = .next s1) :
    Tiles buffer c0 s1.jpg.Segments s1.offset := by
  obtain ⟨h4, hff, _, hseg, rfl⟩ := (scanStep_next_iff buffer s s1).mp hs
  exact Tiles_append buffer _ _ _ _ _ hP ⟨h4, hff, rfl, hseg, rfl, rfl, rfl⟩

theorem HuffmanInv_step (buffer : Bytes) (s s1 : ScanState)
    (hP : HuffmanInv s) (hs : scanStep buffer s = .next s1) : HuffmanInv s1 := by
  obtain ⟨h4, hff, _, hseg, rfl⟩ := (scanStep_next_iff buffer s s1).mp hs
  obtain ⟨hiff, henc⟩ := hP
  refine ⟨?_, henc⟩
  simp only [Bool.or_eq_true, decide_eq_true_eq, List.mem_append, List.mem_singleton, hiff]
  constructor
  · rintro (⟨t, ht, hr⟩ | hx)
    · exact ⟨t, Or.inl ht, hr⟩
    · exact ⟨_, Or.inr rfl, by rw [take_two_raw buffer _ _ (by omega), hff, hx]⟩
  · rintro ⟨t, ht | rfl, hr⟩
    · exact Or.inl ⟨t, ht, hr⟩
    · right
      rw [take_two_raw buffer _ _ (by omega)] at hr
      have hr2 : byteAt buffer s.offset = 0xff ∧ byteAt buffer (s.offset + 1) = 0xc4 := by
        simpa using hr
      exact hr2.2


/-! ## The claims -/

/-- C1 (counterexample): on the buffer `FF D8 FF D9` the scanner is at
cursor 2 with the length field past the end of the buffer, and on
`FF D8 FF DB 00 10 00 00` it is at cursor 2 with a declared extent of
`2 + 16 + 2` past the end; in both cases `New` takes the out-of-range branch
and returns nothing, so no error is reported. -/
theorem New_truncated_takes_out_of_range_branch :
    iterate 0 ([0xff, 0xd8, 0xff, 0xd9] : Bytes) (initState "f") = some (initState "f") ∧
    ([0xff, 0xd8, 0xff, 0xd9] : Bytes).length < (initState "f").offset + 4 ∧
    New "f" [0xff, 0xd8, 0xff, 0xd9] = some Outcome.panic ∧
    iterate 0 ([0xff, 0xd8, 0xff, 0xdb, 0x00, 0x10, 0x00, 0x00] : Bytes) (initState "f")
      = some (initState "f") ∧
    lengthAt [0xff, 0xd8, 0xff, 0xdb, 0x00, 0x10, 0x00, 0x00] 2 = 16 ∧
    New "f" [0xff, 0xd8, 0xff, 0xdb, 0x00, 0x10, 0x00, 0x00] = some Outcome.panic := by
  decide

/-- C1 (as amended): if the scanner reaches, after any number of iterations,
a cursor `c` at which the length field lies past the end of the buffer, or
at which the byte is `FF` and the declared extent `c + length + 2` lies past
the end, then that iteration takes the out-of-range branch and `New` panics:
it returns neither a document nor an error. -/
theorem New_panics_on_truncated_segment (name : String) (buffer : Bytes) (n : Nat)
    (st : ScanState) (hreach : iterate n buffer (initState name) = some st)
    (hbad : buffer.length < st.offset + 4 ∨
      (byteAt buffer st.offset = 0xff ∧
        buffer.length < st.offset + lengthAt buffer st.offset + 2)) :
    scanStep buffer st = .panic ∧ New name buffer = some .panic := by
  have hstep : scanStep buffer st = .panic := by
    rcases hbad with h | ⟨hff, h⟩
    · exact scanStep_of_short buffer st h
    · rw [scanStep_eq_stepSpec]
      simp only [stepSpec]
      split_ifs <;> first | rfl | contradiction
  refine ⟨hstep, ?_⟩
  by_cases hlen : buffer.length < 2
  · exact New_of_short name buffer hlen
  rw [New_of_le name buffer (by omega)]
  obtain ⟨fuel1, heq, h1, h2⟩ := scanLoop_of_iterate buffer n (buffer.length + 1)
    (initState name) st hreach (by simp [initState]; omega) (by simp [initState]; omega)
  obtain ⟨f, rfl⟩ : ∃ f, fuel1 = f + 1 := ⟨fuel1 - 1, by omega⟩
  rw [heq]
  simp [scanLoop, hstep]

/-- Witness for C1 (as amended): the buffer `FF D8 FF D9` at cursor 2. -/
theorem New_panics_on_truncated_segment_witness :
    iterate 0 ([0xff, 0xd8, 0xff, 0xd9] : Bytes) (initState "f") = some (initState "f") ∧
    ([0xff, 0xd8, 0xff, 0xd9] : Bytes).length < (initState "f").offset + 4 ∧
    scanStep [0xff, 0xd8, 0xff, 0xd9] (initState "f") = .panic ∧
    New "f" [0xff, 0xd8, 0xff, 0xd9] = some .panic :=
  ⟨by decide, by decide,
    New_panics_on_truncated_segment "f" [0xff, 0xd8, 0xff, 0xd9] 0 (initState "f") (by decide)
      (Or.inl (by decide))⟩

/-- C2 (counterexample): on `FF D8 | FF DA 00 02 | FF 01 00 02 | 00 00 FF D9`
the scan-header segment at cursor 2 ends at offset 6, the scanner goes on,
classifies the bytes `FF 01` at offset 6 as a marker and returns two
segments, the scan header first and a generic segment after it. -/
theorem New_scans_past_scan_header :
    New "f" [0xff, 0xd8, 0xff, 0xda, 0x00, 0x02, 0xff, 0x01, 0x00, 0x02, 0x00, 0x00, 0xff, 0xd9]
      = some (.returned
          { Segments := [⟨.parseSOS, [0xff, 0xda, 0x00, 0x02], 2⟩,
                         ⟨.parseSegment, [0xff, 0x01, 0x00, 0x02], 2⟩],
            Name := "f", SOI := SOISegment, EOI := EOISegment,
            Data := some [0xff, 0x01, 0x00, 0x02, 0x00, 0x00, 0xff, 0xd9],
            EncodingAlgorithm := "" }) := by
  decide


/-- C2 (as amended): when the scanner dispatches a scan-header marker
`FF DA` at cursor `c` with the segment in bounds, it appends the scan-header
segment, sets `Data` to `buffer[c+length+2:]` and advances the cursor to
`c + length + 2` as after any other segment; the loop does not end there but
runs its next iteration at that cursor. It stops at that cursor, with the
scan header as the last segment, when the length field there is in bounds
and the byte there is not `FF`; when the byte there is `FF` it does not stop
there. -/
theorem scan_header_advances_and_continues (buffer : Bytes) (st : ScanState) (fuel : Nat)
    (h4 : st.offset + 4 ≤ buffer.length)
    (hff : byteAt buffer st.offset = 0xff) (hda : byteAt buffer (st.offset + 1) = 0xda)
    (hseg : st.offset + lengthAt buffer st.offset + 2 ≤ buffer.length) :
    ∃ st1 : ScanState,
      st1 =
        { jpg :=
            { st.jpg with
              Segments := st.jpg.Segments ++
                [⟨.parseSOS, (buffer.drop st.offset).take (lengthAt buffer st.offset + 2),
                  lengthAt buffer st.offset⟩]
              Data := some (buffer.drop (st.offset + lengthAt buffer st.offset + 2)) }
          offset := st.offset + lengthAt buffer st.offset + 2
          isHuffman := st.isHuffman } ∧
      scanStep buffer st = .next st1 ∧
      scanLoop (fuel + 1) buffer st = scanLoop fuel buffer st1 ∧
      (st1.offset + 4 ≤ buffer.length → byteAt buffer st1.offset ≠ 0xff →
        scanLoop (fuel + 2) buffer st = some (.done st1)) ∧
      (byteAt buffer st1.offset = 0xff → ∀ r, scanStep buffer st1 ≠ .stop r) := by
  have hh : handlerAt buffer st.offset = .parseSOS := by
    simp only [handlerAt, hda]; rfl
  have hstep : scanStep buffer st = .next _ :=
    (scanStep_next_iff buffer st _).mpr
      ⟨h4, hff, fun h => absurd (hda ▸ h) (by decide), hseg, rfl⟩
  rw [hh, hda] at hstep
  simp only [if_true, show decide ((0xda : UInt8) = 0xc4) = false by decide, Bool.or_false]
    at hstep
  refine ⟨_, rfl, hstep, ?_, ?_, ?_⟩
  · simp only [scanLoop, hstep]
  · intro hb hnf
    simp only [scanLoop, hstep, scanStep_of_not_ff buffer _ hb hnf]
  · intro hf r hr
    exact ((scanStep_stop_iff buffer _ r).mp hr).2.1 hf

/-- Witness for C2 (as amended): the scan header at cursor 2 of
`FF D8 | FF DA 00 02 | FF 01 00 02 | 00 00 FF D9`. -/
theorem scan_header_advances_and_continues_witness :
    ∃ st1 : ScanState,
      scanStep [0xff, 0xd8, 0xff, 0xda, 0x00, 0x02, 0xff, 0x01, 0x00, 0x02, 0x00, 0x00, 0xff, 0xd9]
        (initState "f") = .next st1 ∧
      st1.offset = 6 ∧
      ∀ r, scanStep
        [0xff, 0xd8, 0xff, 0xda, 0x00, 0x02, 0xff, 0x01, 0x00, 0x02, 0x00, 0x00, 0xff, 0xd9]
        st1 ≠ .stop r := by
  obtain ⟨st1, h1, h2, _, _, h5⟩ := scan_header_advances_and_continues
    [0xff, 0xd8, 0xff, 0xda, 0x00, 0x02, 0xff, 0x01, 0x00, 0x02, 0x00, 0x00, 0xff, 0xd9]
    (initState "f") 0 (by decide) (by decide) (by decide) (by decide)
  refine ⟨st1, h2, by rw [h1]; decide, h5 (by rw [h1]; decide)⟩

/-- C3 (the code at the failing inputs): for `FF D8 00 00`, whose last two
bytes are not `FF D9`, and for `00 00 D9 FF`, which has neither marker, the
call of `isJPG` in `New` yields the nil error. -/
theorem checkMarkers_accepts_missing_markers :
    checkMarkers [0xff, 0xd8, 0x00, 0x00] = some none ∧
    checkMarkers [0x00, 0x00, 0xd9, 0xff] = some none := by
  decide

/-- C4: for every 4-byte slice `b0 b1 b2 b3`, `EntryDataOf` with format
"unsigned long" returns `b0*2^24 + b1*2^16 + b2*2^8 + b3` under big-endian
order and `b3*2^24 + b2*2^16 + b1*2^8 + b0` under little-endian order; the
bytes `00 00 00 10` decode to 16 and to `0x10000000`. -/
theorem EntryDataOf_unsigned_long (b0 b1 b2 b3 : UInt8) :
    EntryDataOf [b0, b1, b2, b3] ⟨"unsigned long"⟩ .BigEndian
        = some (.uint32 (b0.toNat * 2 ^ 24 + b1.toNat * 2 ^ 16 + b2.toNat * 2 ^ 8 + b3.toNat))
    ∧ EntryDataOf [b0, b1, b2, b3] ⟨"unsigned long"⟩ .LittleEndian
        = some (.uint32 (b3.toNat * 2 ^ 24 + b2.toNat * 2 ^ 16 + b1.toNat * 2 ^ 8 + b0.toNat))
    ∧ EntryDataOf [0x00, 0x00, 0x00, 0x10] ⟨"unsigned long"⟩ .BigEndian = some (.uint32 16)
    ∧ EntryDataOf [0x00, 0x00, 0x00, 0x10] ⟨"unsigned long"⟩ .LittleEndian
        = some (.uint32 0x10000000) := by
  refine ⟨?_, ?_, by decide, by decide⟩
  · simp [EntryDataOf, BigEndian.Uint32, or32_eq]
  · simp [EntryDataOf, LittleEndian.Uint32, or32_eq]


/-- C5: for every 8-byte slice and either byte order, both rational formats
decode the denominator as the big-endian 32-bit integer of bytes 0-3 and
the numerator as the big-endian 32-bit integer of bytes 4-7 (twos
complement for "signed rational"), so the result is the same under both
orders; `00 00 00 02 00 00 00 01` decodes to denominator 2, numerator 1. -/
theorem EntryDataOf_rational (b0 b1 b2 b3 b4 b5 b6 b7 : UInt8) (order : ByteOrder) :
    EntryDataOf [b0, b1, b2, b3, b4, b5, b6, b7] ⟨"unsigned rational"⟩ order
      = some (.unsignedRational
          { Denominator := b0.toNat * 2 ^ 24 + b1.toNat * 2 ^ 16 + b2.toNat * 2 ^ 8 + b3.toNat,
            Numerator := b4.toNat * 2 ^ 24 + b5.toNat * 2 ^ 16 + b6.toNat * 2 ^ 8 + b7.toNat })
    ∧ EntryDataOf [b0, b1, b2, b3, b4, b5, b6, b7] ⟨"signed rational"⟩ order
      = some (.signedRational
          { Denominator :=
              if b0.toNat * 2 ^ 24 + b1.toNat * 2 ^ 16 + b2.toNat * 2 ^ 8 + b3.toNat < 2 ^ 31
              then ((b0.toNat * 2 ^ 24 + b1.toNat * 2 ^ 16 + b2.toNat * 2 ^ 8 + b3.toNat : Nat) : Int)
              else ((b0.toNat * 2 ^ 24 + b1.toNat * 2 ^ 16 + b2.toNat * 2 ^ 8 + b3.toNat : Nat) : Int)
                - 2 ^ 32,
            Numerator :=
              if b4.toNat * 2 ^ 24 + b5.toNat * 2 ^ 16 + b6.toNat * 2 ^ 8 + b7.toNat < 2 ^ 31
              then ((b4.toNat * 2 ^ 24 + b5.toNat * 2 ^ 16 + b6.toNat * 2 ^ 8 + b7.toNat : Nat) : Int)
              else ((b4.toNat * 2 ^ 24 + b5.toNat * 2 ^ 16 + b6.toNat * 2 ^ 8 + b7.toNat : Nat) : Int)
                - 2 ^ 32 })
    ∧ EntryDataOf [b0, b1, b2, b3, b4, b5, b6, b7] ⟨"unsigned rational"⟩ .BigEndian
      = EntryDataOf [b0, b1, b2, b3, b4, b5, b6, b7] ⟨"unsigned rational"⟩ .LittleEndian
    ∧ EntryDataOf [b0, b1, b2, b3, b4, b5, b6, b7] ⟨"signed rational"⟩ .BigEndian
      = EntryDataOf [b0, b1, b2, b3, b4, b5, b6, b7] ⟨"signed rational"⟩ .LittleEndian
    ∧ EntryDataOf [0x00, 0x00, 0x00, 0x02, 0x00, 0x00, 0x00, 0x01] ⟨"unsigned rational"⟩ order
      = some (.unsignedRational { Denominator := 2, Numerator := 1 })
    ∧ EntryDataOf [0x00, 0x00, 0x00, 0x02, 0x00, 0x00, 0x00, 0x01] ⟨"signed rational"⟩ order
      = some (.signedRational { Denominator := 2, Numerator := 1 }) := by
  refine ⟨unsigned_rational_eq _ _ _ _ _ _ _ _ order, ?_, ?_, ?_, ?_, ?_⟩
  · rw [signed_rational_eq, toInt32_of_lt _ (sum32_lt b0 b1 b2 b3),
      toInt32_of_lt _ (sum32_lt b4 b5 b6 b7)]
  · rw [unsigned_rational_eq, unsigned_rational_eq]
  · rw [signed_rational_eq, signed_rational_eq]
  · cases order <;> decide
  · cases order <;> decide

/-- C6: for every byte slice, the empty one included, every byte order and
every `DataFormat` whose `Format` is none of the twelve recognized names,
or is "unsigned byte" or "undefined", `EntryDataOf` returns the input bytes
unchanged and does not panic. -/
theorem EntryDataOf_raw_bytes (data : Bytes) (df : DataFormat) (order : ByteOrder)
    (h : df.Format ∉ recognizedFormats ∨ df.Format = "unsigned byte" ∨
      df.Format = "undefined") :
    EntryDataOf data df order = some (.bytes data) := by
  rcases h with h | h | h
  · simp only [recognizedFormats, List.mem_cons, List.mem_singleton, not_or, List.not_mem_nil,
      or_false] at h
    obtain ⟨h1, h2, h3, h4, h5, h6, h7, h8, h9, h10, h11, h12⟩ := h
    simp only [EntryDataOf, if_neg h1, if_neg h2, if_neg h3, if_neg h4, if_neg h5, if_neg h6,
      if_neg h7, if_neg h8, if_neg h9, if_neg h10, if_neg h11, if_neg h12]
  · simp [EntryDataOf, h]
  · simp [EntryDataOf, h]

/-- Witness for C6: the empty slice with the unknown format name "bogus",
and a two-byte slice with the format "undefined". -/
theorem EntryDataOf_raw_bytes_witness :
    (DataFormat.mk "bogus").Format ∉ recognizedFormats ∧
    EntryDataOf [] ⟨"bogus"⟩ .LittleEndian = some (.bytes []) ∧
    EntryDataOf [0x01, 0x02] ⟨"undefined"⟩ .BigEndian = some (.bytes [0x01, 0x02]) :=
  ⟨by decide, EntryDataOf_raw_bytes [] ⟨"bogus"⟩ .LittleEndian (Or.inl (by decide)),
    EntryDataOf_raw_bytes [0x01, 0x02] ⟨"undefined"⟩ .BigEndian (Or.inr (Or.inr rfl))⟩

/-- C7: at a cursor `c` holding one of the sixteen application markers
`FF E0` .. `FF EF`, with the eleven identifier bytes and the segment in
bounds, the iteration appends exactly one segment, built from the bytes
`buffer[c .. c+length+2)` and the declared length, and goes on at
`c + length + 2`. Its sub-parser is `parseEXIF` if the 6 bytes at `c+4` are
"Exif\0\0", else `parseAPP` (JFIF) if the 5 bytes at `c+4` are "JFIF\0",
else `parseICC` if the 11 bytes at `c+4` are "ICC_PROFILE", else the generic
`parseSegment`; the second marker byte plays no part in the choice. -/
theorem app_marker_dispatch (buffer : Bytes) (st : ScanState)
    (hff : byteAt buffer st.offset = 0xff)
    (happ : byteAt buffer (st.offset + 1) ∈ appCodes)
    (hid : st.offset + 15 ≤ buffer.length)
    (hseg : st.offset + lengthAt buffer st.offset + 2 ≤ buffer.length) :
    scanStep buffer st = .next
      { jpg :=
          { st.jpg with
            Segments := st.jpg.Segments ++
              [⟨(if (buffer.drop (st.offset + 4)).take 6 = [0x45, 0x78, 0x69, 0x66, 0x00, 0x00]
                  then SubParser.parseEXIF
                else if (buffer.drop (st.offset + 4)).take 5 = [0x4a, 0x46, 0x49, 0x46, 0x00]
                  then SubParser.parseAPP
                else if (buffer.drop (st.offset + 4)).take 11
                    = [0x49, 0x43, 0x43, 0x5f, 0x50, 0x52, 0x4f, 0x46, 0x49, 0x4c, 0x45]
                  then SubParser.parseICC
                else SubParser.parseSegment),
                (buffer.drop st.offset).take (lengthAt buffer st.offset + 2),
                lengthAt buffer st.offset⟩] }
        offset := st.offset + lengthAt buffer st.offset + 2
        isHuffman := st.isHuffman } := by
  have hda : byteAt buffer (st.offset + 1) ≠ 0xda := by
    intro h; rw [h] at happ; revert happ; decide
  have hc4 : byteAt buffer (st.offset + 1) ≠ 0xc4 := by
    intro h; rw [h] at happ; revert happ; decide
  have hh : handlerAt buffer st.offset = appHandlerAt buffer st.offset := by
    simp only [handlerAt, happ, if_true]
  rw [(scanStep_next_iff buffer st _).mpr ⟨by omega, hff, fun _ => hid, hseg, rfl⟩, hh]
  simp [hda, hc4, appHandlerAt, exifId, jfifId, iccId]

/-- Witness for C7: the APP0 segment `FF E0 00 10 "JFIF\0" ..` at cursor 2
goes to `parseAPP`. -/
theorem app_marker_dispatch_witness :
    scanStep
      [0xff, 0xd8, 0xff, 0xe0, 0x00, 0x10, 0x4a, 0x46, 0x49, 0x46, 0x00, 0x01, 0x01, 0x00, 0x00,
        0x01, 0x00, 0x01, 0x00, 0x00, 0x00, 0x00, 0xff, 0xd9]
      (initState "f")
    = .next
      { jpg :=
          { Segments :=
              [⟨.parseAPP,
                [0xff, 0xe0, 0x00, 0x10, 0x4a, 0x46, 0x49, 0x46, 0x00, 0x01, 0x01, 0x00, 0x00,
                  0x01, 0x00, 0x01, 0x00, 0x00], 16⟩],
            Name := "f", SOI := SOISegment, EOI := EOISegment, Data := none,
            EncodingAlgorithm := "" }
        offset := 20
        isHuffman := false } :=
  (app_marker_dispatch
    [0xff, 0xd8, 0xff, 0xe0, 0x00, 0x10, 0x4a, 0x46, 0x49, 0x46, 0x00, 0x01, 0x01, 0x00, 0x00,
      0x01, 0x00, 0x01, 0x00, 0x00, 0x00, 0x00, 0xff, 0xd9]
    (initState "f") (by decide) (by decide) (by decide) (by decide)).trans (by decide)

/-- C8 (counterexample): in `FF D8 FF C8 00 10 00 00` the pair `FF C8` at
cursor 2 is none of the application, comment, quantization, scan-header,
frame-header or Huffman markers, yet it is not recorded as a generic
segment: its declared extent `2 + 16 + 2` lies past the end, the iteration
panics and `New` returns nothing. In `FF D8 00 00` the pair at cursor 2 does
not begin with `FF`, yet the loop does not end there: the length field
`buffer[4:6]` is read first and the iteration panics. -/
theorem scanStep_panics_before_classifying :
    byteAt [0xff, 0xd8, 0xff, 0xc8, 0x00, 0x10, 0x00, 0x00] 2 = 0xff ∧
    byteAt [0xff, 0xd8, 0xff, 0xc8, 0x00, 0x10, 0x00, 0x00] 3 = 0xc8 ∧
    lengthAt [0xff, 0xd8, 0xff, 0xc8, 0x00, 0x10, 0x00, 0x00] 2 = 16 ∧
    scanStep [0xff, 0xd8, 0xff, 0xc8, 0x00, 0x10, 0x00, 0x00] (initState "f") = .panic ∧
    New "f" [0xff, 0xd8, 0xff, 0xc8, 0x00, 0x10, 0x00, 0x00] = some .panic ∧
    byteAt [0xff, 0xd8, 0x00, 0x00] 2 ≠ 0xff ∧
    scanStep [0xff, 0xd8, 0x00, 0x00] (initState "f") = .panic ∧
    scanStep [0xff, 0xd8, 0x00, 0x00] (initState "f") ≠ .stop (initState "f") ∧
    New "f" [0xff, 0xd8, 0x00, 0x00] = some .panic := by
  decide

/-- C8 (as amended): at a cursor `c` with the length field in bounds
(`c + 4 <= len(buffer)`), a pair whose first byte is not `FF` ends the loop
with no segment appended; a marker `FF x` whose segment extent
`c + length + 2` (and, for an application marker, identifier window
`c+4 .. c+14`) is in bounds gets one segment appended and the scan goes on
at `c + length + 2`, where the sub-parser is `parseSOF` iff `x` is one of
`C0 C1 C2 C3 C5 C6`, is `parseDHT` for `C4`, and is the generic
`parseSegment` for every `x` that is not an application, comment,
quantization, scan-header, frame-header or Huffman code, `C8` and `CC`
among them. -/
theorem marker_dispatch (buffer : Bytes) (st : ScanState)
    (h4 : st.offset + 4 ≤ buffer.length) :
    (byteAt buffer st.offset ≠ 0xff → scanStep buffer st = .stop st) ∧
    (byteAt buffer st.offset = 0xff →
      (byteAt buffer (st.offset + 1) ∈ appCodes → st.offset + 15 ≤ buffer.length) →
      st.offset + lengthAt buffer st.offset + 2 ≤ buffer.length →
      ∃ (p : SubParser) (st1 : ScanState),
        scanStep buffer st = .next st1 ∧
        st1.offset = st.offset + lengthAt buffer st.offset + 2 ∧
        st1.jpg.Segments = st.jpg.Segments ++
          [⟨p, (buffer.drop st.offset).take (lengthAt buffer st.offset + 2),
            lengthAt buffer st.offset⟩] ∧
        (p = .parseSOF ↔ byteAt buffer (st.offset + 1) ∈ sofCodes) ∧
        (byteAt buffer (st.offset + 1) = 0xc4 → p = .parseDHT) ∧
        (byteAt buffer (st.offset + 1) = 0xc8 → p = .parseSegment) ∧
        (byteAt buffer (st.offset + 1) = 0xcc → p = .parseSegment) ∧
        (byteAt buffer (st.offset + 1) ∉ appCodes → byteAt buffer (st.offset + 1) ≠ 0xfe →
          byteAt buffer (st.offset + 1) ≠ 0xdb → byteAt buffer (st.offset + 1) ≠ 0xda →
          byteAt buffer (st.offset + 1) ∉ sofCodes → byteAt buffer (st.offset + 1) ≠ 0xc4 →
          p = .parseSegment)) := by
  refine ⟨fun h => scanStep_of_not_ff buffer st h4 h, fun hff hid hseg => ?_⟩
  refine ⟨handlerAt buffer st.offset, _,
    (scanStep_next_iff buffer st _).mpr ⟨h4, hff, hid, hseg, rfl⟩, rfl, rfl,
    handlerAt_eq_parseSOF_iff buffer st.offset, ?_, ?_, ?_, ?_⟩
  · intro h; simp only [handlerAt, h]; rfl
  · intro h; simp only [handlerAt, h]; rfl
  · intro h; simp only [handlerAt, h]; rfl
  · intro h1 h2 h3 h4 h5 h6
    simp only [handlerAt, h1, h2, h3, h4, h5, h6, if_false]

/-- Witness for C8 (as amended): at cursor 2 of `FF D8 00 00 00 00` the loop ends; at
cursor 2 of `FF D8 FF C8 00 02 00 00` a generic segment is appended. -/
theorem marker_dispatch_witness :
    scanStep [0xff, 0xd8, 0x00, 0x00, 0x00, 0x00] (initState "f") = .stop (initState "f") ∧
    ∃ (p : SubParser) (st1 : ScanState),
      scanStep [0xff, 0xd8, 0xff, 0xc8, 0x00, 0x02, 0x00, 0x00] (initState "f") = .next st1 ∧
      p = .parseSegment ∧ st1.jpg.Segments = [⟨p, [0xff, 0xc8, 0x00, 0x02], 2⟩] := by
  refine ⟨(marker_dispatch [0xff, 0xd8, 0x00, 0x00, 0x00, 0x00] (initState "f")
    (by decide)).1 (by decide), ?_⟩
  obtain ⟨p, st1, h1, _, h3, _, _, h6, _⟩ :=
    (marker_dispatch [0xff, 0xd8, 0xff, 0xc8, 0x00, 0x02, 0x00, 0x00] (initState "f")
      (by decide)).2 (by decide) (by decide) (by decide)
  have hp : p = .parseSegment := h6 (by decide)
  subst hp
  exact ⟨_, st1, h1, rfl, by rw [h3]; decide⟩

/-- C9: on every buffer on which `New` returns, the returned segments tile
the buffer in file order: the first starts at offset 2; a segment starting
at cursor `c` begins with `FF`, carries as its length the big-endian 16-bit
value `L` at `c+2..c+3`, is parsed from exactly `buffer[c .. c+L+2)` by the
sub-parser of the marker at `c`, and the next one starts at `c+L+2`; the
sequence ends at the cursor `e` where the loop stopped, whose byte is not
`FF`. -/
theorem segments_tile_buffer (name : String) (buffer : Bytes) (jpg : JPG)
    (h : New name buffer = some (.returned jpg)) :
    ∃ e, Tiles buffer 2 jpg.Segments e ∧ e + 4 ≤ buffer.length ∧ byteAt buffer e ≠ 0xff := by
  obtain ⟨n, r, hn, hstop, rfl⟩ := New_returned name buffer jpg h
  have hT : Tiles buffer 2 r.jpg.Segments r.offset :=
    iterate_invariant buffer (fun s => Tiles buffer 2 s.jpg.Segments s.offset)
      (fun s s1 hP hs => Tiles_step buffer 2 s s1 hP hs) n (initState name) r hn rfl
  obtain ⟨h4, hff, _⟩ := (scanStep_stop_iff buffer r r).mp hstop
  exact ⟨r.offset, by rw [finish_Segments]; exact hT, h4, hff⟩

/-- Witness for C9: `FF D8 | FF DB 00 02 | FF C4 00 03 00 | 00 00 FF D9`
yields two segments, at offsets 2 and 6, and the loop stops at offset 11. -/
theorem segments_tile_buffer_witness :
    ∃ e, Tiles [0xff, 0xd8, 0xff, 0xdb, 0x00, 0x02, 0xff, 0xc4, 0x00, 0x03, 0x00, 0x00, 0x00,
        0xff, 0xd9] 2
      [⟨.parseDQT, [0xff, 0xdb, 0x00, 0x02], 2⟩, ⟨.parseDHT, [0xff, 0xc4, 0x00, 0x03, 0x00], 3⟩] e
      ∧ e + 4 ≤ 15
      ∧ byteAt [0xff, 0xd8, 0xff, 0xdb, 0x00, 0x02, 0xff, 0xc4, 0x00, 0x03, 0x00, 0x00, 0x00,
        0xff, 0xd9] e ≠ 0xff :=
  segments_tile_buffer "f"
    [0xff, 0xd8, 0xff, 0xdb, 0x00, 0x02, 0xff, 0xc4, 0x00, 0x03, 0x00, 0x00, 0x00, 0xff, 0xd9]
    { Segments := [⟨.parseDQT, [0xff, 0xdb, 0x00, 0x02], 2⟩,
                   ⟨.parseDHT, [0xff, 0xc4, 0x00, 0x03, 0x00], 3⟩],
      Name := "f", SOI := SOISegment, EOI := EOISegment, Data := none,
      EncodingAlgorithm := "Huffman coding" }
    (by decide)

/-- C10: on every buffer on which `New` returns, `EncodingAlgorithm` is
"Huffman coding" iff some returned segment was dispatched for the marker
`FF C4` (wherever it stands among the segments, before or after a frame
header), and is the empty string otherwise. -/
theorem huffman_flag_iff (name : String) (buffer : Bytes) (jpg : JPG)
    (h : New name buffer = some (.returned jpg)) :
    (jpg.EncodingAlgorithm = "Huffman coding" ↔
      ∃ s ∈ jpg.Segments, s.raw.take 2 = [0xff, 0xc4]) ∧
    (jpg.EncodingAlgorithm ≠ "Huffman coding" → jpg.EncodingAlgorithm = "") := by
  obtain ⟨n, r, hn, _, rfl⟩ := New_returned name buffer jpg h
  have hI : HuffmanInv r :=
    iterate_invariant buffer HuffmanInv (fun s s1 hP hs => HuffmanInv_step buffer s s1 hP hs)
      n (initState name) r hn ⟨by simp [initState], rfl⟩
  obtain ⟨hiff, henc⟩ := hI
  rw [finish_Segments, ← hiff]
  simp only [finish]
  by_cases hH : r.isHuffman = true
  · simp [hH]
  · simp [hH, henc]

/-- Witness for C10: in `FF D8 | FF C4 00 03 00 | FF C0 00 02 | 00 00 FF D9`
the Huffman table comes before the frame header and the flag is set. -/
theorem huffman_flag_iff_witness :
    ∃ s ∈ [(⟨.parseDHT, [0xff, 0xc4, 0x00, 0x03, 0x00], 3⟩ : Segment),
        ⟨.parseSOF, [0xff, 0xc0, 0x00, 0x02], 2⟩],
      s.raw.take 2 = [0xff, 0xc4] :=
  (huffman_flag_iff "f"
    [0xff, 0xd8, 0xff, 0xc4, 0x00, 0x03, 0x00, 0xff, 0xc0, 0x00, 0x02, 0x00, 0x00, 0xff, 0xd9]
    { Segments := [⟨.parseDHT, [0xff, 0xc4, 0x00, 0x03, 0x00], 3⟩,
                   ⟨.parseSOF, [0xff, 0xc0, 0x00, 0x02], 2⟩],
      Name := "f", SOI := SOISegment, EOI := EOISegment, Data := none,
      EncodingAlgorithm := "Huffman coding" }
    (by decide)).1.mp rfl

/-! ## Catalog lookups -/

theorem lookup_getD_eq_zero_iff (l : List (UInt16 × IFDTag)) (h : ∀ p ∈ l, p.2.Name ≠ "")
    (k : UInt16) :
    (((l.lookup k).getD { Name := "", Description := "" }).Name = "" ∧
      ((l.lookup k).getD { Name := "", Description := "" }).Description = "") ↔
    k ∉ l.map Prod.fst := by
  induction l with
  | nil => simp
  | cons p rest ih =>
    obtain ⟨a, b⟩ := p
    have hb : b.Name ≠ "" := h (a, b) (List.mem_cons_self _ _)
    have hrest : ∀ p ∈ rest, p.2.Name ≠ "" := fun p hp => h p (List.mem_cons_of_mem _ hp)
    by_cases hk : k = a
    · subst hk
      simp [List.lookup, hb]
    · have hka : (k == a) = false := by simpa using hk
      simp only [List.lookup, hka, List.map_cons, List.mem_cons, hk, false_or]
      exact ih hrest

/-- C14: each of `findIFD0Tag`, `findIFD1Tag` and `findSubIFDTag` is a total
function of the 16-bit identifier and returns the record with empty `Name`
and empty `Description` iff the identifier is not a key of its own map; the
keys of the three maps are as listed, `0x8769` is a key of the first only,
`0x0100` of the second only and `0x829a` of the third only. -/
theorem catalog_lookup_empty_iff (idx : UInt16) :
    (((findIFD0Tag idx).Name = "" ∧ (findIFD0Tag idx).Description = "") ↔
      idx ∉ IFD0Tags.map Prod.fst) ∧
    (((findIFD1Tag idx).Name = "" ∧ (findIFD1Tag idx).Description = "") ↔
      idx ∉ IFD1Tags.map Prod.fst) ∧
    (((findSubIFDTag idx).Name = "" ∧ (findSubIFDTag idx).Description = "") ↔
      idx ∉ SubIFDTags.map Prod.fst) ∧
    IFD0Tags.map Prod.fst =
      [0x010e, 0x010f, 0x0110, 0x0112, 0x011a, 0x011b, 0x0128, 0x0131, 0x0132, 0x013e, 0x013f,
        0x0211, 0x0213, 0x0214, 0x8298, 0x8769] ∧
    IFD1Tags.map Prod.fst =
      [0x0100, 0x0101, 0x0102, 0x0103, 0x0106, 0x0111, 0x0115, 0x0116, 0x0117, 0x011a, 0x011b,
        0x011c, 0x0128, 0x0201, 0x0202, 0x0211, 0x0212, 0x0213, 0x0214] ∧
    SubIFDTags.map Prod.fst =
      [0x829a, 0x829d, 0x8822, 0x8827, 0x9000, 0x9003, 0x9004, 0x9101, 0x9102, 0x9201, 0x9202,
        0x9203, 0x9204, 0x9205, 0x9206, 0x9207, 0x9208, 0x9209, 0x920a, 0x927c, 0x9286, 0xa000,
        0xa001, 0xa002, 0xa003, 0xa004, 0xa005, 0xa20e, 0xa20f, 0xa210, 0xa217, 0xa300,
        0xa301] ∧
    ((findIFD0Tag 0x8769).Name = "ExitOffset" ∧ findIFD1Tag 0x8769 = ⟨"", ""⟩ ∧
      findSubIFDTag 0x8769 = ⟨"", ""⟩) ∧
    (findIFD0Tag 0x0100 = ⟨"", ""⟩ ∧ (findIFD1Tag 0x0100).Name = "ImageWidth" ∧
      findSubIFDTag 0x0100 = ⟨"", ""⟩) ∧
    (findIFD0Tag 0x829a = ⟨"", ""⟩ ∧ findIFD1Tag 0x829a = ⟨"", ""⟩ ∧
      (findSubIFDTag 0x829a).Name = "ExposureTime") := by
  refine ⟨lookup_getD_eq_zero_iff IFD0Tags (by decide) idx,
    lookup_getD_eq_zero_iff IFD1Tags (by decide) idx,
    lookup_getD_eq_zero_iff SubIFDTags (by decide) idx, by decide, by decide, by decide,
    by decide, by decide, by decide⟩

/-! ## Signed entries -/

theorem le16_eq (b0 b1 : UInt8) : b0.toNat ||| (b1.toNat <<< 8) = b1.toNat * 2 ^ 8 + b0.toNat :=
  lor_shiftLeft_eq_add _ _ 8 (byte_lt b0)

theorem sum16_lt (b0 b1 : UInt8) : b0.toNat * 2 ^ 8 + b1.toNat < 2 ^ 16 := by
  have h0 := byte_lt b0
  have h1 := byte_lt b1
  omega

theorem toInt8_spec (u : Nat) (h : u < 2 ^ 8) :
    -128 ≤ toInt8 u ∧ toInt8 u ≤ 127 ∧ (toInt8 u - (u : Int)) % 256 = 0 ∧
      toInt8 u = if u < 128 then (u : Int) else (u : Int) - 256 := by
  simp only [toInt8, Nat.mod_eq_of_lt h]
  split_ifs <;> omega

theorem toInt16_spec (u : Nat) (h : u < 2 ^ 16) :
    -2 ^ 15 ≤ toInt16 u ∧ toInt16 u < 2 ^ 15 ∧ (toInt16 u - (u : Int)) % 2 ^ 16 = 0 ∧
      toInt16 u = if u < 2 ^ 15 then (u : Int) else (u : Int) - 2 ^ 16 := by
  simp only [toInt16, Nat.mod_eq_of_lt h]
  norm_num at h ⊢
  split_ifs <;> omega

theorem toInt32_spec (u : Nat) (h : u < 2 ^ 32) :
    -2 ^ 31 ≤ toInt32 u ∧ toInt32 u < 2 ^ 31 ∧ (toInt32 u - (u : Int)) % 2 ^ 32 = 0 ∧
      toInt32 u = if u < 2 ^ 31 then (u : Int) else (u : Int) - 2 ^ 32 := by
  simp only [toInt32, Nat.mod_eq_of_lt h]
  norm_num at h ⊢
  split_ifs <;> omega

theorem unsigned_short_eq (b0 b1 : UInt8) (r : Bytes) :
    EntryDataOf (b0 :: b1 :: r) ⟨"unsigned short"⟩ .BigEndian
      = some (.uint16 (b0.toNat * 2 ^ 8 + b1.toNat)) ∧
    EntryDataOf (b0 :: b1 :: r) ⟨"unsigned short"⟩ .LittleEndian
      = some (.uint16 (b1.toNat * 2 ^ 8 + b0.toNat)) := by
  constructor
  · simp [EntryDataOf, BigEndian.Uint16, be16_eq]
  · simp [EntryDataOf, LittleEndian.Uint16, le16_eq]

theorem signed_short_eq (b0 b1 : UInt8) (r : Bytes) :
    EntryDataOf (b0 :: b1 :: r) ⟨"signed short"⟩ .BigEndian
      = some (.int16 (toInt16 (b0.toNat * 2 ^ 8 + b1.toNat))) ∧
    EntryDataOf (b0 :: b1 :: r) ⟨"signed short"⟩ .LittleEndian
      = some (.int16 (toInt16 (b1.toNat * 2 ^ 8 + b0.toNat))) := by
  constructor
  · simp [EntryDataOf, readInt16, readFull, ByteOrder.Uint16, BigEndian.Uint16, be16_eq]
  · simp [EntryDataOf, readInt16, readFull, ByteOrder.Uint16, LittleEndian.Uint16, le16_eq]

theorem unsigned_long_eq (b0 b1 b2 b3 : UInt8) (r : Bytes) :
    EntryDataOf (b0 :: b1 :: b2 :: b3 :: r) ⟨"unsigned long"⟩ .BigEndian
      = some (.uint32 (b0.toNat * 2 ^ 24 + b1.toNat * 2 ^ 16 + b2.toNat * 2 ^ 8 + b3.toNat)) ∧
    EntryDataOf (b0 :: b1 :: b2 :: b3 :: r) ⟨"unsigned long"⟩ .LittleEndian
      = some (.uint32 (b3.toNat * 2 ^ 24 + b2.toNat * 2 ^ 16 + b1.toNat * 2 ^ 8 + b0.toNat)) := by
  constructor
  · simp [EntryDataOf, BigEndian.Uint32, or32_eq]
  · simp [EntryDataOf, LittleEndian.Uint32, or32_eq]

theorem signed_long_eq (b0 b1 b2 b3 : UInt8) (r : Bytes) :
    EntryDataOf (b0 :: b1 :: b2 :: b3 :: r) ⟨"signed long"⟩ .BigEndian
      = some (.int32 (toInt32
          (b0.toNat * 2 ^ 24 + b1.toNat * 2 ^ 16 + b2.toNat * 2 ^ 8 + b3.toNat))) ∧
    EntryDataOf (b0 :: b1 :: b2 :: b3 :: r) ⟨"signed long"⟩ .LittleEndian
      = some (.int32 (toInt32
          (b3.toNat * 2 ^ 24 + b2.toNat * 2 ^ 16 + b1.toNat * 2 ^ 8 + b0.toNat))) := by
  constructor
  · simp [EntryDataOf, readInt32, readFull, ByteOrder.Uint32, BigEndian.Uint32, or32_eq]
  · simp [EntryDataOf, readInt32, readFull, ByteOrder.Uint32, LittleEndian.Uint32, or32_eq]

theorem unsigned_rational_append (b0 b1 b2 b3 b4 b5 b6 b7 : UInt8) (r : Bytes)
    (order : ByteOrder) :
    EntryDataOf (b0 :: b1 :: b2 :: b3 :: b4 :: b5 :: b6 :: b7 :: r) ⟨"unsigned rational"⟩ order
      = some (.unsignedRational
          { Denominator := b0.toNat * 2 ^ 24 + b1.toNat * 2 ^ 16 + b2.toNat * 2 ^ 8 + b3.toNat,
            Numerator := b4.toNat * 2 ^ 24 + b5.toNat * 2 ^ 16 + b6.toNat * 2 ^ 8 + b7.toNat }) := by
  cases order <;>
    simp [EntryDataOf, slice, readUint32, readFull, ByteOrder.Uint32, BigEndian.Uint32, or32_eq]

theorem signed_rational_append (b0 b1 b2 b3 b4 b5 b6 b7 : UInt8) (r : Bytes)
    (order : ByteOrder) :
    EntryDataOf (b0 :: b1 :: b2 :: b3 :: b4 :: b5 :: b6 :: b7 :: r) ⟨"signed rational"⟩ order
      = some (.signedRational
          { Denominator :=
              toInt32 (b0.toNat * 2 ^ 24 + b1.toNat * 2 ^ 16 + b2.toNat * 2 ^ 8 + b3.toNat),
            Numerator :=
              toInt32 (b4.toNat * 2 ^ 24 + b5.toNat * 2 ^ 16 + b6.toNat * 2 ^ 8 + b7.toNat) }) := by
  cases order <;>
    simp [EntryDataOf, slice, readInt32, readFull, ByteOrder.Uint32, BigEndian.Uint32, or32_eq]

/-- C15: the value bytes `00 01` of the Orientation entry decode, as
"unsigned short" under big-endian order, to the 16-bit unsigned integer 1,
and `findIFD0Tag(0x0112)` is the record named "Orientation"; for every
2-byte slice `b0 b1`, "unsigned short" decodes to `b0*256 + b1` under
big-endian and to `b1*256 + b0` under little-endian order. -/
theorem orientation_entry_decodes (b0 b1 : UInt8) :
    EntryDataOf [0x00, 0x01] ⟨"unsigned short"⟩ .BigEndian = some (.uint16 1) ∧
    (findIFD0Tag 0x0112).Name = "Orientation" ∧
    EntryDataOf [b0, b1] ⟨"unsigned short"⟩ .BigEndian
      = some (.uint16 (b0.toNat * 256 + b1.toNat)) ∧
    EntryDataOf [b0, b1] ⟨"unsigned short"⟩ .LittleEndian
      = some (.uint16 (b1.toNat * 256 + b0.toNat)) :=
  ⟨by decide, by decide, (unsigned_short_eq b0 b1 []).1, (unsigned_short_eq b0 b1 []).2⟩

/-- C16: for every 2-byte slice ("signed short", width 16) and every 4-byte
slice ("signed long", width 32) and either byte order, the signed format
returns the twos-complement reading `v` of the value `u` that the unsigned
format of the same width returns for the same bytes and order: `v` lies in
`[-2^(w-1), 2^(w-1))`, `v - u` is a multiple of `2^w`, and `v` is `u` or
`u - 2^w`; "signed byte" returns the twos-complement reading of the first
byte, in `[-128, 127]`. -/
theorem signed_entries_twos_complement (b0 b1 b2 b3 : UInt8) (rest : Bytes)
    (order : ByteOrder) :
    (∃ (u : Nat) (v : Int),
      EntryDataOf [b0, b1] ⟨"unsigned short"⟩ order = some (.uint16 u) ∧
      EntryDataOf [b0, b1] ⟨"signed short"⟩ order = some (.int16 v) ∧
      -2 ^ 15 ≤ v ∧ v < 2 ^ 15 ∧ (v - (u : Int)) % 2 ^ 16 = 0 ∧
      v = if u < 2 ^ 15 then (u : Int) else (u : Int) - 2 ^ 16) ∧
    (∃ (u : Nat) (v : Int),
      EntryDataOf [b0, b1, b2, b3] ⟨"unsigned long"⟩ order = some (.uint32 u) ∧
      EntryDataOf [b0, b1, b2, b3] ⟨"signed long"⟩ order = some (.int32 v) ∧
      -2 ^ 31 ≤ v ∧ v < 2 ^ 31 ∧ (v - (u : Int)) % 2 ^ 32 = 0 ∧
      v = if u < 2 ^ 31 then (u : Int) else (u : Int) - 2 ^ 32) ∧
    (∃ v : Int,
      EntryDataOf (b0 :: rest) ⟨"signed byte"⟩ order = some (.int8 v) ∧
      -128 ≤ v ∧ v ≤ 127 ∧ (v - (b0.toNat : Int)) % 256 = 0 ∧
      v = if b0.toNat < 128 then (b0.toNat : Int) else (b0.toNat : Int) - 256) := by
  refine ⟨?_, ?_, ?_⟩
  · cases order
    · exact ⟨_, _, (unsigned_short_eq b0 b1 []).1, (signed_short_eq b0 b1 []).1,
        toInt16_spec _ (sum16_lt b0 b1)⟩
    · exact ⟨_, _, (unsigned_short_eq b0 b1 []).2, (signed_short_eq b0 b1 []).2,
        toInt16_spec _ (sum16_lt b1 b0)⟩
  · cases order
    · exact ⟨_, _, (unsigned_long_eq b0 b1 b2 b3 []).1, (signed_long_eq b0 b1 b2 b3 []).1,
        toInt32_spec _ (sum32_lt b0 b1 b2 b3)⟩
    · exact ⟨_, _, (unsigned_long_eq b0 b1 b2 b3 []).2, (signed_long_eq b0 b1 b2 b3 []).2,
        toInt32_spec _ (sum32_lt b3 b2 b1 b0)⟩
  · refine ⟨toInt8 b0.toNat, ?_, toInt8_spec _ (byte_lt b0)⟩
    simp [EntryDataOf, index]

/-- C20: for every byte order, every slice `x` of exactly the element size
(2 bytes for the short formats, 4 for the long formats, 8 for the rational
formats) and every suffix `r`, `EntryDataOf` returns for `x ++ r` what it
returns for `x`: only the first element is decoded. For instance the two
shorts `00 01 00 02` decode to the single value 1. -/
theorem EntryDataOf_ignores_trailing_bytes (b0 b1 b2 b3 b4 b5 b6 b7 : UInt8) (r : Bytes)
    (order : ByteOrder) :
    EntryDataOf ([b0, b1] ++ r) ⟨"unsigned short"⟩ order
      = EntryDataOf [b0, b1] ⟨"unsigned short"⟩ order ∧
    EntryDataOf ([b0, b1] ++ r) ⟨"signed short"⟩ order
      = EntryDataOf [b0, b1] ⟨"signed short"⟩ order ∧
    EntryDataOf ([b0, b1, b2, b3] ++ r) ⟨"unsigned long"⟩ order
      = EntryDataOf [b0, b1, b2, b3] ⟨"unsigned long"⟩ order ∧
    EntryDataOf ([b0, b1, b2, b3] ++ r) ⟨"signed long"⟩ order
      = EntryDataOf [b0, b1, b2, b3] ⟨"signed long"⟩ order ∧
    EntryDataOf ([b0, b1, b2, b3, b4, b5, b6, b7] ++ r) ⟨"unsigned rational"⟩ order
      = EntryDataOf [b0, b1, b2, b3, b4, b5, b6, b7] ⟨"unsigned rational"⟩ order ∧
    EntryDataOf ([b0, b1, b2, b3, b4, b5, b6, b7] ++ r) ⟨"signed rational"⟩ order
      = EntryDataOf [b0, b1, b2, b3, b4, b5, b6, b7] ⟨"signed rational"⟩ order ∧
    EntryDataOf [0x00, 0x01, 0x00, 0x02] ⟨"unsigned short"⟩ .BigEndian = some (.uint16 1) := by
  refine ⟨?_, ?_, ?_, ?_, ?_, ?_, by decide⟩
  · cases order
    · exact ((unsigned_short_eq b0 b1 r).1).trans ((unsigned_short_eq b0 b1 []).1).symm
    · exact ((unsigned_short_eq b0 b1 r).2).trans ((unsigned_short_eq b0 b1 []).2).symm
  · cases order
    · exact ((signed_short_eq b0 b1 r).1).trans ((signed_short_eq b0 b1 []).1).symm
    · exact ((signed_short_eq b0 b1 r).2).trans ((signed_short_eq b0 b1 []).2).symm
  · cases order
    · exact ((unsigned_long_eq b0 b1 b2 b3 r).1).trans ((unsigned_long_eq b0 b1 b2 b3 []).1).symm
    · exact ((unsigned_long_eq b0 b1 b2 b3 r).2).trans ((unsigned_long_eq b0 b1 b2 b3 []).2).symm
  · cases order
    · exact ((signed_long_eq b0 b1 b2 b3 r).1).trans ((signed_long_eq b0 b1 b2 b3 []).1).symm
    · exact ((signed_long_eq b0 b1 b2 b3 r).2).trans ((signed_long_eq b0 b1 b2 b3 []).2).symm
  · exact (unsigned_rational_append b0 b1 b2 b3 b4 b5 b6 b7 r order).trans
      (unsigned_rational_append b0 b1 b2 b3 b4 b5 b6 b7 [] order).symm
  · exact (signed_rational_append b0 b1 b2 b3 b4 b5 b6 b7 r order).trans
      (signed_rational_append b0 b1 b2 b3 b4 b5 b6 b7 [] order).symm

/-! ## Bounds on the number of iterations -/

theorem scanLoop_next (buffer : Bytes) (fuel : Nat) (s s1 : ScanState)
    (h : scanStep buffer s = .next s1) : scanLoop (fuel + 1) buffer s = scanLoop fuel buffer s1 := by
  simp only [scanLoop, h]

theorem scanLoop_stop (buffer : Bytes) (fuel : Nat) (s s1 : ScanState)
    (h : scanStep buffer s = .stop s1) : scanLoop (fuel + 1) buffer s = some (.done s1) := by
  simp only [scanLoop, h]

theorem scanLoop_panic (buffer : Bytes) (fuel : Nat) (s : ScanState)
    (h : scanStep buffer s = .panic) : scanLoop (fuel + 1) buffer s = some .panic := by
  simp only [scanLoop, h]

theorem scanStep_next_offset (buffer : Bytes) (s s1 : ScanState)
    (h : scanStep buffer s = .next s1) :
    s1.offset = s.offset + lengthAt buffer s.offset + 2 ∧ s.offset + 4 ≤ buffer.length ∧
      s1.offset ≤ buffer.length := by
  obtain ⟨h4, _, _, hle, rfl⟩ := (scanStep_next_iff buffer s s1).mp h
  exact ⟨rfl, h4, hle⟩

theorem iterate_offset (buffer : Bytes) :
    ∀ (n : Nat) (s r : ScanState), iterate n buffer s = some r →
      s.offset + 2 * n ≤ r.offset ∧ (0 < n → r.offset ≤ buffer.length) := by
  intro n
  induction n with
  | zero =>
    intro s r h
    simp only [iterate, Option.some.injEq] at h
    subst h
    exact ⟨by omega, fun h0 => absurd h0 (by omega)⟩
  | succ n ih =>
    intro s r h
    simp only [iterate] at h
    cases hs : scanStep buffer s with
    | panic => simp [hs] at h
    | stop s1 => simp [hs] at h
    | next s1 =>
      simp only [hs] at h
      obtain ⟨ho, _, hle⟩ := scanStep_next_offset buffer s s1 hs
      obtain ⟨h1, h2⟩ := ih s1 r h
      refine ⟨by omega, fun _ => ?_⟩
      by_cases hn : 0 < n
      · exact h2 hn
      · have hn0 : n = 0 := by omega
        subst hn0
        simp only [iterate, Option.some.injEq] at h
        subst h
        exact hle

theorem scanLoop_total_half (buffer : Bytes) :
    ∀ (fuel : Nat) (st : ScanState), 0 < fuel → buffer.length < st.offset + 2 * fuel →
      ∃ r, scanLoop fuel buffer st = some r := by
  intro fuel
  induction fuel with
  | zero => intro st h1 _; omega
  | succ n ih =>
    intro st _ h2
    cases hs : scanStep buffer st with
    | panic => exact ⟨_, scanLoop_panic buffer n st hs⟩
    | stop s => exact ⟨_, scanLoop_stop buffer n st s hs⟩
    | next s =>
      obtain ⟨ho, _, hle⟩ := scanStep_next_offset buffer st s hs
      rw [scanLoop_next buffer n st s hs]
      exact ih s (by omega) (by omega)

theorem New_of_iterate_panic (name : String) (buffer : Bytes) (n : Nat) (st : ScanState)
    (hreach : iterate n buffer (initState name) = some st)
    (hstep : scanStep buffer st = .panic) : New name buffer = some .panic := by
  by_cases hlen : buffer.length < 2
  · exact New_of_short name buffer hlen
  rw [New_of_le name buffer (by omega)]
  obtain ⟨fuel1, heq, h1, h2⟩ := scanLoop_of_iterate buffer n (buffer.length + 1)
    (initState name) st hreach (by simp [initState]; omega) (by simp [initState]; omega)
  obtain ⟨f, rfl⟩ : ∃ f, fuel1 = f + 1 := ⟨fuel1 - 1, by omega⟩
  rw [heq, scanLoop_panic buffer f st hstep]

/-- C17: the scan loop of `New` ends on every buffer. Every iteration that
does not leave the loop moves the cursor forward by `length + 2`, at least
2, and leaves it within the buffer; the cursor after `n` such iterations
from offset 2 is at least `2 + 2n`, so there are at most `len(buffer)/2` of
them; the loop has stopped or hit an out-of-range access within
`len(buffer)/2 + 1` iterations, and `New` always ends. -/
theorem scan_loop_terminates (name : String) (buffer : Bytes) :
    (∀ s s1 : ScanState, scanStep buffer s = .next s1 →
      s1.offset = s.offset + lengthAt buffer s.offset + 2 ∧ s.offset + 2 ≤ s1.offset ∧
        s1.offset ≤ buffer.length) ∧
    (∀ (n : Nat) (st : ScanState), iterate n buffer (initState name) = some st →
      2 + 2 * n ≤ st.offset ∧ n ≤ buffer.length / 2) ∧
    (∃ r, scanLoop (buffer.length / 2 + 1) buffer (initState name) = some r) ∧
    (∃ r, New name buffer = some r) := by
  refine ⟨?_, ?_, ?_, New_total name buffer⟩
  · intro s s1 h
    obtain ⟨ho, _, hle⟩ := scanStep_next_offset buffer s s1 h
    exact ⟨ho, by omega, hle⟩
  · intro n st h
    obtain ⟨h1, h2⟩ := iterate_offset buffer n (initState name) st h
    have h0 : (initState name).offset = 2 := rfl
    rw [h0] at h1
    refine ⟨h1, ?_⟩
    by_cases hn : 0 < n
    · have := h2 hn
      omega
    · omega
  · exact scanLoop_total_half buffer _ _ (by omega) (by simp only [initState]; omega)

/-- Witness for C17: in `FF D8 | FF DB 00 00 | 00 00` the length field at
cursor 2 is zero and one iteration moves the cursor from 2 to 4. -/
theorem scan_loop_terminates_witness :
    iterate 1 [0xff, 0xd8, 0xff, 0xdb, 0x00, 0x00, 0x00, 0x00] (initState "f")
      = some
        { jpg :=
            { Segments := [⟨.parseDQT, [0xff, 0xdb], 0⟩],
              Name := "f", SOI := SOISegment, EOI := EOISegment, Data := none,
              EncodingAlgorithm := "" }
          offset := 4
          isHuffman := false } ∧
    2 + 2 * 1 ≤ 4 ∧ 1 ≤ 8 / 2 :=
  ⟨by decide,
    (scan_loop_terminates "f" [0xff, 0xd8, 0xff, 0xdb, 0x00, 0x00, 0x00, 0x00]).2.1 1
      { jpg :=
          { Segments := [⟨.parseDQT, [0xff, 0xdb], 0⟩],
            Name := "f", SOI := SOISegment, EOI := EOISegment, Data := none,
            EncodingAlgorithm := "" }
        offset := 4
        isHuffman := false }
      (by decide)⟩

/-! ## The identifier of an application segment -/

theorem appHandlerAt_congr (buffer buffer1 : Bytes) (c c1 : Nat)
    (h : (buffer.drop (c + 4)).take 11 = (buffer1.drop (c1 + 4)).take 11) :
    appHandlerAt buffer c = appHandlerAt buffer1 c1 := by
  have h6 : (buffer.drop (c + 4)).take 6 = (buffer1.drop (c1 + 4)).take 6 := by
    have := congrArg (List.take 6) h
    simpa [List.take_take] using this
  have h5 : (buffer.drop (c + 4)).take 5 = (buffer1.drop (c1 + 4)).take 5 := by
    have := congrArg (List.take 5) h
    simpa [List.take_take] using this
  simp only [appHandlerAt, h, h6, h5]

theorem handlerAt_of_app (buffer : Bytes) (c : Nat) (h : byteAt buffer (c + 1) ∈ appCodes) :
    handlerAt buffer c = appHandlerAt buffer c := by
  simp only [handlerAt, h, if_true]

/-- C18: `New` returns a document only if the loop has reached a cursor `c`
with `c + 4 <= len(buffer)` and `buffer[c] != 0xFF`, the cursor at which it
stops; whenever the scan reaches a cursor with fewer than 4 bytes remaining,
the end of the buffer included, `New` panics and returns no document. So do
the buffer `FF D8 FF D9` and a buffer whose last segment is followed by the
end-of-image marker `FF D9` alone. -/
theorem New_returns_only_with_four_bytes_left (name : String) (buffer : Bytes) :
    (∀ jpg, New name buffer = some (.returned jpg) →
      ∃ (n : Nat) (st : ScanState), iterate n buffer (initState name) = some st ∧
        st.offset + 4 ≤ buffer.length ∧ byteAt buffer st.offset ≠ 0xff ∧
        scanStep buffer st = .stop st ∧ jpg = finish st) ∧
    (∀ (n : Nat) (st : ScanState), iterate n buffer (initState name) = some st →
      buffer.length < st.offset + 4 →
      New name buffer = some .panic ∧ ∀ jpg, New name buffer ≠ some (.returned jpg)) ∧
    New "f" [0xff, 0xd8, 0xff, 0xd9] = some .panic ∧
    New "f" [0xff, 0xd8, 0xff, 0xdb, 0x00, 0x02, 0xff, 0xd9] = some .panic ∧
    New "f" [0xff, 0xd8, 0xff, 0xdb, 0x00, 0x02] = some .panic := by
  refine ⟨?_, ?_, by decide, by decide, by decide⟩
  · intro jpg h
    obtain ⟨n, r, hn, hstop, hj⟩ := New_returned name buffer jpg h
    obtain ⟨h4, hff, _⟩ := (scanStep_stop_iff buffer r r).mp hstop
    exact ⟨n, r, hn, h4, hff, hstop, hj⟩
  · intro n st hn hshort
    have hp := New_of_iterate_panic name buffer n st hn (scanStep_of_short buffer st hshort)
    refine ⟨hp, fun jpg hj => ?_⟩
    rw [hp] at hj
    exact absurd hj (by simp)

/-- Witness for C18: after the segment `FF DB 00 02` of
`FF D8 | FF DB 00 02 | FF D9` the cursor is 6 with 2 bytes remaining. -/
theorem New_returns_only_with_four_bytes_left_witness :
    iterate 1 [0xff, 0xd8, 0xff, 0xdb, 0x00, 0x02, 0xff, 0xd9] (initState "f")
      = some
        { jpg :=
            { Segments := [⟨.parseDQT, [0xff, 0xdb, 0x00, 0x02], 2⟩],
              Name := "f", SOI := SOISegment, EOI := EOISegment, Data := none,
              EncodingAlgorithm := "" }
          offset := 6
          isHuffman := false } ∧
    8 < 6 + 4 ∧
    New "f" [0xff, 0xd8, 0xff, 0xdb, 0x00, 0x02, 0xff, 0xd9] = some .panic :=
  ⟨by decide, by decide,
    ((New_returns_only_with_four_bytes_left "f"
      [0xff, 0xd8, 0xff, 0xdb, 0x00, 0x02, 0xff, 0xd9]).2.1 1
      { jpg :=
          { Segments := [⟨.parseDQT, [0xff, 0xdb, 0x00, 0x02], 2⟩],
            Name := "f", SOI := SOISegment, EOI := EOISegment, Data := none,
            EncodingAlgorithm := "" }
        offset := 6
        isHuffman := false }
      (by decide) (by decide)).1⟩

/-- C19: for an application marker the sub-parser is decided by the 11
buffer bytes at `c+4 .. c+14` alone: two scans at application markers (with
identifier and segment in bounds, whatever the declared lengths) that see
the same 11 bytes append segments of the same sub-parser. Those bytes may
lie past the end of the segment: the buffers `FF D8 FF E0 00 02 "JFIF\0" 00..`
and `FF D8 FF E0 00 02 00..` have the same application segment `FF E0 00 02`
at cursor 2, and `New` returns it as a JFIF segment (`parseAPP`) for the
first and as a generic segment (`parseSegment`) for the second. -/
theorem app_handler_depends_on_identifier_bytes_only :
    (∀ (buffer buffer1 : Bytes) (st st1 : ScanState),
      byteAt buffer st.offset = 0xff → byteAt buffer (st.offset + 1) ∈ appCodes →
      st.offset + 15 ≤ buffer.length →
      st.offset + lengthAt buffer st.offset + 2 ≤ buffer.length →
      byteAt buffer1 st1.offset = 0xff → byteAt buffer1 (st1.offset + 1) ∈ appCodes →
      st1.offset + 15 ≤ buffer1.length →
      st1.offset + lengthAt buffer1 st1.offset + 2 ≤ buffer1.length →
      (buffer.drop (st.offset + 4)).take 11 = (buffer1.drop (st1.offset + 4)).take 11 →
      ∃ (p : SubParser) (s s1 : ScanState),
        scanStep buffer st = .next s ∧ scanStep buffer1 st1 = .next s1 ∧
        s.jpg.Segments = st.jpg.Segments ++
          [⟨p, (buffer.drop st.offset).take (lengthAt buffer st.offset + 2),
            lengthAt buffer st.offset⟩] ∧
        s1.jpg.Segments = st1.jpg.Segments ++
          [⟨p, (buffer1.drop st1.offset).take (lengthAt buffer1 st1.offset + 2),
            lengthAt buffer1 st1.offset⟩]) ∧
    (∃ (buffer buffer1 : Bytes) (raw : Bytes) (len : Nat) (jpg jpg1 : JPG),
      lengthAt buffer 2 = len ∧ lengthAt buffer1 2 = len ∧ len < 13 ∧
      (buffer.drop 2).take (len + 2) = raw ∧ (buffer1.drop 2).take (len + 2) = raw ∧
      New "f" buffer = some (.returned jpg) ∧ New "f" buffer1 = some (.returned jpg1) ∧
      jpg.Segments = [⟨.parseAPP, raw, len⟩] ∧ jpg1.Segments = [⟨.parseSegment, raw, len⟩]) := by
  constructor
  · intro buffer buffer1 st st1 hff happ hid hseg hff1 happ1 hid1 hseg1 hsame
    refine ⟨appHandlerAt buffer st.offset, _, _,
      (scanStep_next_iff buffer st _).mpr ⟨by omega, hff, fun _ => hid, hseg, rfl⟩,
      (scanStep_next_iff buffer1 st1 _).mpr ⟨by omega, hff1, fun _ => hid1, hseg1, rfl⟩, ?_, ?_⟩
    · simp only [handlerAt_of_app buffer st.offset happ]
    · simp only [handlerAt_of_app buffer1 st1.offset happ1,
        appHandlerAt_congr buffer buffer1 st.offset st1.offset hsame]
  · exact ⟨[0xff, 0xd8, 0xff, 0xe0, 0x00, 0x02, 0x4a, 0x46, 0x49, 0x46, 0x00, 0x00, 0x00, 0x00,
        0x00, 0x00, 0x00],
      [0xff, 0xd8, 0xff, 0xe0, 0x00, 0x02, 0x00, 0x00, 0x00, 0x00, 0x00, 0x00, 0x00, 0x00,
        0x00, 0x00, 0x00],
      [0xff, 0xe0, 0x00, 0x02], 2,
      { Segments := [⟨.parseAPP, [0xff, 0xe0, 0x00, 0x02], 2⟩], Name := "f",
        SOI := SOISegment, EOI := EOISegment, Data := none, EncodingAlgorithm := "" },
      { Segments := [⟨.parseSegment, [0xff, 0xe0, 0x00, 0x02], 2⟩], Name := "f",
        SOI := SOISegment, EOI := EOISegment, Data := none, EncodingAlgorithm := "" },
      by decide⟩

/-- Witness for C19: an APP0 segment of declared length 16 and one of
declared length 2, both followed from `c+4` on by the same 11 bytes
beginning with "JFIF\0", get the same sub-parser. -/
theorem app_handler_depends_on_identifier_bytes_only_witness :
    ∃ (p : SubParser) (s s1 : ScanState),
      scanStep [0xff, 0xd8, 0xff, 0xe0, 0x00, 0x10, 0x4a, 0x46, 0x49, 0x46, 0x00, 0x01, 0x01,
        0x00, 0x00, 0x01, 0x00, 0x01, 0x00, 0x00] (initState "f") = .next s ∧
      scanStep [0xff, 0xd8, 0xff, 0xe0, 0x00, 0x02, 0x4a, 0x46, 0x49, 0x46, 0x00, 0x01, 0x01,
        0x00, 0x00, 0x01, 0x00] (initState "f") = .next s1 ∧
      s.jpg.Segments.map Segment.handler = [p] ∧ s1.jpg.Segments.map Segment.handler = [p] := by
  obtain ⟨p, s, s1, h1, h2, h3, h4⟩ := app_handler_depends_on_identifier_bytes_only.1
    [0xff, 0xd8, 0xff, 0xe0, 0x00, 0x10, 0x4a, 0x46, 0x49, 0x46, 0x00, 0x01, 0x01,
      0x00, 0x00, 0x01, 0x00, 0x01, 0x00, 0x00]
    [0xff, 0xd8, 0xff, 0xe0, 0x00, 0x02, 0x4a, 0x46, 0x49, 0x46, 0x00, 0x01, 0x01,
      0x00, 0x00, 0x01, 0x00]
    (initState "f") (initState "f") (by decide) (by decide) (by decide) (by decide)
    (by decide) (by decide) (by decide) (by decide) (by decide)
  exact ⟨p, s, s1, h1, h2, by rw [h3]; rfl, by rw [h4]; rfl⟩

/-- C12 (counterexample): the 20-byte buffer made of `FF D8` and the 18-byte
APP0 segment `FF E0 00 10 "JFIF\0" ..` ends at the next cursor position;
`New` dispatches the segment and then panics on the length field at
offsets 22..23, and it still panics when one byte `00` follows. -/
theorem New_panics_after_minimal_jfif :
    New "f" [0xff, 0xd8, 0xff, 0xe0, 0x00, 0x10, 0x4a, 0x46, 0x49, 0x46, 0x00, 0x01, 0x01, 0x00,
      0x00, 0x01, 0x00, 0x01, 0x00, 0x00] = some .panic ∧
    New "f" [0xff, 0xd8, 0xff, 0xe0, 0x00, 0x10, 0x4a, 0x46, 0x49, 0x46, 0x00, 0x01, 0x01, 0x00,
      0x00, 0x01, 0x00, 0x01, 0x00, 0x00, 0x00] = some .panic := by
  decide

/-- C12 (as amended): for every buffer that consists of `FF D8`, then the
18-byte APP0 segment `FF E0 00 10 "JFIF\0"` with 9 further payload bytes, then
at least 4 more bytes of which the first is not `FF`, `New` returns a
document with exactly one segment, the JFIF segment (`parseAPP`) made of
those 18 bytes with length 16, no `Data` and no encoding algorithm. -/
theorem New_minimal_jfif (name : String) (p0 p1 p2 p3 p4 p5 p6 p7 p8 r0 r1 r2 r3 : UInt8)
    (rest : Bytes) (h0 : r0 ≠ 0xff) :
    New name
        ([0xff, 0xd8, 0xff, 0xe0, 0x00, 0x10, 0x4a, 0x46, 0x49, 0x46, 0x00,
            p0, p1, p2, p3, p4, p5, p6, p7, p8] ++ r0 :: r1 :: r2 :: r3 :: rest)
      = some (.returned
          { Segments :=
              [⟨.parseAPP,
                [0xff, 0xe0, 0x00, 0x10, 0x4a, 0x46, 0x49, 0x46, 0x00,
                  p0, p1, p2, p3, p4, p5, p6, p7, p8], 16⟩],
            Name := name, SOI := SOISegment, EOI := EOISegment, Data := none,
            EncodingAlgorithm := "" }) := by
  generalize hb : ([0xff, 0xd8, 0xff, 0xe0, 0x00, 0x10, 0x4a, 0x46, 0x49, 0x46, 0x00,
    p0, p1, p2, p3, p4, p5, p6, p7, p8] ++ r0 :: r1 :: r2 :: r3 :: rest : Bytes) = buffer
  have hlen : buffer.length = rest.length + 24 := by subst hb; simp
  have b2 : byteAt buffer 2 = 0xff := by subst hb; rfl
  have b3 : byteAt buffer 3 = 0xe0 := by subst hb; rfl
  have b20 : byteAt buffer 20 = r0 := by subst hb; rfl
  have b4 : byteAt buffer 4 = 0x00 := by subst hb; rfl
  have b5 : byteAt buffer 5 = 0x10 := by subst hb; rfl
  have hL : lengthAt buffer 2 = 16 := by
    simp only [lengthAt, b4, b5]
    decide
  have hh : handlerAt buffer 2 = .parseAPP := by
    subst hb
    simp [handlerAt, byteAt, appCodes, appHandlerAt, exifId, jfifId]
  have hraw : (buffer.drop 2).take 18 = [0xff, 0xe0, 0x00, 0x10, 0x4a, 0x46, 0x49, 0x46, 0x00,
      p0, p1, p2, p3, p4, p5, p6, p7, p8] := by subst hb; rfl
  have hstep1 := (scanStep_next_iff buffer (initState name) _).mpr
    ⟨by simp only [initState]; omega, b2, fun _ => by simp only [initState]; omega,
      by simp only [initState, hL]; omega, rfl⟩
  simp only [initState, hL, hh, b3, hraw] at hstep1
  simp only [show ((0xe0 : UInt8) = 0xda) = False by decide, if_false,
    show decide ((0xe0 : UInt8) = 0xc4) = false by decide, Bool.or_false, List.nil_append]
    at hstep1
  change scanStep buffer (initState name) = _ at hstep1
  have hstep2 := scanStep_of_not_ff buffer
    { jpg :=
        { Segments :=
            [⟨.parseAPP,
              [0xff, 0xe0, 0x00, 0x10, 0x4a, 0x46, 0x49, 0x46, 0x00,
                p0, p1, p2, p3, p4, p5, p6, p7, p8], 16⟩],
          Name := name, SOI := SOISegment, EOI := EOISegment, Data := none,
          EncodingAlgorithm := "" }
      offset := 2 + 16 + 2
      isHuffman := false }
    (by simp only []; omega) (by rw [b20]; exact h0)
  rw [New_of_le name buffer (by omega),
    show buffer.length + 1 = (rest.length + 23) + 1 + 1 by omega,
    scanLoop_next buffer _ _ _ hstep1, scanLoop_stop buffer _ _ _ hstep2]
  rfl

/-! ## Counting the segments -/

theorem markersBeforeNonFF_of_Tiles (buffer : Bytes) :
    ∀ (segs : List Segment) (c e fuel : Nat), Tiles buffer c segs e →
      byteAt buffer e ≠ 0xff → buffer.length ≤ c + fuel →
      markersBeforeNonFF buffer fuel c = segs.length := by
  intro segs
  induction segs with
  | nil =>
    intro c e fuel hT hne _
    simp only [Tiles] at hT
    subst hT
    cases fuel with
    | zero => rfl
    | succ f => simp [markersBeforeNonFF, hne]
  | cons s rest ih =>
    intro c e fuel hT hne hfuel
    simp only [Tiles] at hT
    obtain ⟨h4, hff, hlen, hseg, _, _, hrest⟩ := hT
    obtain ⟨f, rfl⟩ : ∃ f, fuel = f + 1 := ⟨fuel - 1, by omega⟩
    simp only [markersBeforeNonFF, hff, ne_eq, not_true_eq_false, if_false, List.length_cons]
    rw [← hlen, ih (c + s.length + 2) e f hrest hne (by omega)]

/-! ## The scan data -/

theorem Tiles_end_unique (buffer : Bytes) :
    ∀ (segs : List Segment) (a e1 e2 : Nat), Tiles buffer a segs e1 → Tiles buffer a segs e2 →
      e1 = e2 := by
  intro segs
  induction segs with
  | nil =>
    intro a e1 e2 h1 h2
    simp only [Tiles] at h1 h2
    rw [h1, h2]
  | cons s rest ih =>
    intro a e1 e2 h1 h2
    simp only [Tiles] at h1 h2
    exact ih _ _ _ h1.2.2.2.2.2.2 h2.2.2.2.2.2.2

theorem finish_Data (st : ScanState) : (finish st).Data = st.jpg.Data := by
  simp only [finish]
  split_ifs <;> rfl

theorem DataInv_step (buffer : Bytes) (s s1 : ScanState)
    (hP : Tiles buffer 2 s.jpg.Segments s.offset ∧ DataInv buffer s)
    (hs : scanStep buffer s = .next s1) :
    Tiles buffer 2 s1.jpg.Segments s1.offset ∧ DataInv buffer s1 := by
  refine ⟨Tiles_step buffer 2 s s1 hP.1 hs, ?_⟩
  obtain ⟨hT, hnone, hsome⟩ := hP
  obtain ⟨h4, hff, _, hseg, rfl⟩ := (scanStep_next_iff buffer s s1).mp hs
  have hraw := take_two_raw buffer s.offset (lengthAt buffer s.offset) (by omega)
  rw [hff] at hraw
  constructor
  · intro hall
    have hnew := hall _ (List.mem_append_right _ (List.mem_singleton_self _))
    have hx : byteAt buffer (s.offset + 1) ≠ 0xda := by
      intro hx
      exact hnew (by simp only [hraw, hx])
    simp only [hx, if_false]
    exact hnone (fun t ht => hall t (List.mem_append_left _ ht))
  · intro pre t post c hsplit hpre ht hpost
    simp only at hsplit
    rcases List.eq_nil_or_concat post with rfl | ⟨init, last, rfl⟩
    · obtain ⟨hpreeq, hteq⟩ := List.append_inj' hsplit (by simp)
      simp only [List.cons.injEq, and_true] at hteq
      subst hteq
      subst hpreeq
      have hc : c = s.offset := Tiles_end_unique buffer _ 2 _ _ hpre hT
      subst hc
      have hx : byteAt buffer (s.offset + 1) = 0xda := by
        have := hraw.symm.trans ht
        simpa using this
      simp only [hx, if_true]
    · simp only [List.concat_eq_append] at hsplit hpost
      have hsplit2 : s.jpg.Segments ++
          [(⟨handlerAt buffer s.offset,
            (buffer.drop s.offset).take (lengthAt buffer s.offset + 2),
            lengthAt buffer s.offset⟩ : Segment)] = (pre ++ t :: init) ++ [last] := by
        rw [hsplit]; simp
      obtain ⟨hold, hlast⟩ := List.append_inj' hsplit2 (by simp)
      simp only [List.cons.injEq, and_true] at hlast
      have hnl : last.raw.take 2 ≠ [0xff, 0xda] := hpost last (by simp)
      have hx : byteAt buffer (s.offset + 1) ≠ 0xda := by
        intro hx
        apply hnl
        rw [← hlast]
        simp only [hraw, hx]
      simp only [hx, if_false]
      exact hsome pre t init c hold hpre ht (fun u hu => hpost u (by simp [hu]))

/-- Witness for C12 (as amended): the APP0/JFIF segment followed by the four
bytes `00 00 FF D9`. -/
theorem New_minimal_jfif_witness :
    (0x00 : UInt8) ≠ 0xff ∧
    New "f" [0xff, 0xd8, 0xff, 0xe0, 0x00, 0x10, 0x4a, 0x46, 0x49, 0x46, 0x00, 0x01, 0x01, 0x00,
        0x00, 0x01, 0x00, 0x01, 0x00, 0x00, 0x00, 0x00, 0xff, 0xd9]
      = some (.returned
          { Segments :=
              [⟨.parseAPP,
                [0xff, 0xe0, 0x00, 0x10, 0x4a, 0x46, 0x49, 0x46, 0x00, 0x01, 0x01, 0x00, 0x00,
                  0x01, 0x00, 0x01, 0x00, 0x00], 16⟩],
            Name := "f", SOI := SOISegment, EOI := EOISegment, Data := none,
            EncodingAlgorithm := "" }) :=
  ⟨by decide,
    New_minimal_jfif "f" 0x01 0x01 0x00 0x00 0x01 0x00 0x01 0x00 0x00 0x00 0x00 0xff 0xd9 []
      (by decide)⟩

/-- C11 (counterexample): in `FF D8 | FF DA 00 02 | FF DA 00 02 | 00 00 00 00`
a scan-header marker is dispatched at cursor 2 with declared length 2, the
suffix after that segment is `buffer[6:]`, of 8 bytes, and yet `New` returns
with `Data` the 4 bytes `buffer[10:]`, the suffix after the second scan
header. -/
theorem New_Data_follows_second_scan_header :
    New "f" [0xff, 0xd8, 0xff, 0xda, 0x00, 0x02, 0xff, 0xda, 0x00, 0x02, 0x00, 0x00, 0x00, 0x00]
      = some (.returned
          { Segments := [⟨.parseSOS, [0xff, 0xda, 0x00, 0x02], 2⟩,
                         ⟨.parseSOS, [0xff, 0xda, 0x00, 0x02], 2⟩],
            Name := "f", SOI := SOISegment, EOI := EOISegment,
            Data := some [0x00, 0x00, 0x00, 0x00],
            EncodingAlgorithm := "" }) ∧
    lengthAt [0xff, 0xd8, 0xff, 0xda, 0x00, 0x02, 0xff, 0xda, 0x00, 0x02, 0x00, 0x00, 0x00,
      0x00] 2 = 2 ∧
    ([0xff, 0xd8, 0xff, 0xda, 0x00, 0x02, 0xff, 0xda, 0x00, 0x02, 0x00, 0x00, 0x00, 0x00]
        : Bytes).drop (2 + 2 + 2)
      = [0xff, 0xda, 0x00, 0x02, 0x00, 0x00, 0x00, 0x00] := by
  decide

/-- C11 (as amended): on every buffer on which `New` returns, `Data` is
absent if no returned segment has the marker `FF DA`; otherwise, with `s`
the last returned segment that has the marker `FF DA` and `c` the cursor at
which it starts (where the segments before it end), `Data` is the buffer
suffix `buffer[c + length + 2 ..]` after the end of `s`. -/
theorem Data_follows_last_scan_header (name : String) (buffer : Bytes) (jpg : JPG)
    (h : New name buffer = some (.returned jpg)) :
    ((∀ s ∈ jpg.Segments, s.raw.take 2 ≠ [0xff, 0xda]) → jpg.Data = none) ∧
    (∀ (pre : List Segment) (s : Segment) (post : List Segment) (c : Nat),
      jpg.Segments = pre ++ s :: post → Tiles buffer 2 pre c →
      s.raw.take 2 = [0xff, 0xda] → (∀ t ∈ post, t.raw.take 2 ≠ [0xff, 0xda]) →
      jpg.Data = some (buffer.drop (c + lengthAt buffer c + 2))) := by
  obtain ⟨n, r, hn, _, rfl⟩ := New_returned name buffer jpg h
  have hI : Tiles buffer 2 r.jpg.Segments r.offset ∧ DataInv buffer r :=
    iterate_invariant buffer
      (fun s => Tiles buffer 2 s.jpg.Segments s.offset ∧ DataInv buffer s)
      (fun s s1 hP hs => DataInv_step buffer s s1 hP hs) n (initState name) r hn
      ⟨rfl, fun _ => rfl, fun pre s post c hsplit _ _ _ => by
        simp [initState] at hsplit⟩
  rw [finish_Segments, finish_Data]
  exact hI.2

/-- Witness for C11 (as amended): in
`FF D8 | FF DB 00 02 | FF DA 00 02 | 01 02 03 04` the scan header starts at
cursor 6 and `Data` is `buffer[10:]`. -/
theorem Data_follows_last_scan_header_witness :
    (some [0x01, 0x02, 0x03, 0x04] : Option Bytes)
      = some (([0xff, 0xd8, 0xff, 0xdb, 0x00, 0x02, 0xff, 0xda, 0x00, 0x02, 0x01, 0x02, 0x03,
          0x04] : Bytes).drop
            (6 + lengthAt [0xff, 0xd8, 0xff, 0xdb, 0x00, 0x02, 0xff, 0xda, 0x00, 0x02, 0x01,
              0x02, 0x03, 0x04] 6 + 2)) :=
  (Data_follows_last_scan_header "f"
    [0xff, 0xd8, 0xff, 0xdb, 0x00, 0x02, 0xff, 0xda, 0x00, 0x02, 0x01, 0x02, 0x03, 0x04]
    { Segments := [⟨.parseDQT, [0xff, 0xdb, 0x00, 0x02], 2⟩,
                   ⟨.parseSOS, [0xff, 0xda, 0x00, 0x02], 2⟩],
      Name := "f", SOI := SOISegment, EOI := EOISegment,
      Data := some [0x01, 0x02, 0x03, 0x04], EncodingAlgorithm := "" }
    (by decide)).2
    [⟨.parseDQT, [0xff, 0xdb, 0x00, 0x02], 2⟩] ⟨.parseSOS, [0xff, 0xda, 0x00, 0x02], 2⟩ [] 6
    rfl (by decide) (by decide) (by decide)

/-- C13 (counterexample): on the well-formed buffer
`FF D8 | FF DB 00 02 | FF DA 00 02 | FF 01 00 02 | 00 00 FF D9` `New` returns
three segments, while one `FF`-led marker stands before the scan-header
marker, and two when the scan-header marker is counted with it. -/
theorem New_counts_markers_past_scan_header :
    New "f" [0xff, 0xd8, 0xff, 0xdb, 0x00, 0x02, 0xff, 0xda, 0x00, 0x02, 0xff, 0x01, 0x00, 0x02,
        0x00, 0x00, 0xff, 0xd9]
      = some (.returned
          { Segments := [⟨.parseDQT, [0xff, 0xdb, 0x00, 0x02], 2⟩,
                         ⟨.parseSOS, [0xff, 0xda, 0x00, 0x02], 2⟩,
                         ⟨.parseSegment, [0xff, 0x01, 0x00, 0x02], 2⟩],
            Name := "f", SOI := SOISegment, EOI := EOISegment,
            Data := some [0xff, 0x01, 0x00, 0x02, 0x00, 0x00, 0xff, 0xd9],
            EncodingAlgorithm := "" }) ∧
    markersBeforeScanHeader [0xff, 0xd8, 0xff, 0xdb, 0x00, 0x02, 0xff, 0xda, 0x00, 0x02, 0xff,
      0x01, 0x00, 0x02, 0x00, 0x00, 0xff, 0xd9] 18 2 = 1 ∧
    markersThroughScanHeader [0xff, 0xd8, 0xff, 0xdb, 0x00, 0x02, 0xff, 0xda, 0x00, 0x02, 0xff,
      0x01, 0x00, 0x02, 0x00, 0x00, 0xff, 0xd9] 18 2 = 2 := by
  decide

/-- C13 (as amended): on every buffer on which `New` returns, the number of
returned segments equals the number of `FF`-led markers found at successive
cursor positions, starting at offset 2 and stepping by `length + 2`, before
the first cursor position whose first byte is not `FF`; a scan-header
marker is counted like any other and does not end the count. -/
theorem segment_count_eq_markers_before_non_ff (name : String) (buffer : Bytes) (jpg : JPG)
    (h : New name buffer = some (.returned jpg)) :
    jpg.Segments.length = markersBeforeNonFF buffer buffer.length 2 := by
  obtain ⟨n, r, hn, hstop, rfl⟩ := New_returned name buffer jpg h
  have hT : Tiles buffer 2 r.jpg.Segments r.offset :=
    iterate_invariant buffer (fun s => Tiles buffer 2 s.jpg.Segments s.offset)
      (fun s s1 hP hs => Tiles_step buffer 2 s s1 hP hs) n (initState name) r hn rfl
  obtain ⟨_, hff, _⟩ := (scanStep_stop_iff buffer r r).mp hstop
  rw [finish_Segments]
  exact (markersBeforeNonFF_of_Tiles buffer _ 2 r.offset buffer.length hT hff (by omega)).symm

/-- Witness for C13 (as amended): `FF D8 | FF DA 00 02 | FF C4 00 02 | 00 00 00 00`
has two `FF`-led markers before the first cursor whose byte is not `FF`. -/
theorem segment_count_eq_markers_before_non_ff_witness :
    markersBeforeNonFF
      [0xff, 0xd8, 0xff, 0xda, 0x00, 0x02, 0xff, 0xc4, 0x00, 0x02, 0x00, 0x00, 0x00, 0x00] 14 2
      = 2 :=
  (segment_count_eq_markers_before_non_ff "f"
    [0xff, 0xd8, 0xff, 0xda, 0x00, 0x02, 0xff, 0xc4, 0x00, 0x02, 0x00, 0x00, 0x00, 0x00]
    { Segments := [⟨.parseSOS, [0xff, 0xda, 0x00, 0x02], 2⟩,
                   ⟨.parseDHT, [0xff, 0xc4, 0x00, 0x02], 2⟩],
      Name := "f", SOI := SOISegment, EOI := EOISegment,
      Data := some [0xff, 0xc4, 0x00, 0x02, 0x00, 0x00, 0x00, 0x00],
      EncodingAlgorithm := "Huffman coding" }
    (by decide)).symm

end jpg
